import Mathlib

/-!
map-params: typed accessors over `map[string]interface{}`

A shallow embedding of `map_params.go`.  The Go type `MapParams` is a map from
string keys to dynamically typed values; its accessors read one entry, coerce
it, and on failure store an error under the reserved key `"$_error"` of the
same map.

Modelling decisions
* A dynamic value (`interface{}`) is the sum type `Value`: the untyped `nil`,
  the predeclared string, boolean, signed, unsigned and floating-point types,
  `err` for a value whose type implements `error`, and `other` for a value of
  any remaining type (a defined type such as `time.Duration`, a slice, a
  struct).  `err` and `other` carry what the source can observe of them: the
  type name `reflect.TypeOf` prints, the text `%v` prints, and the data
  `reflect` reads by kind (`Underlying`).
* A map is `MapParams.nil` (the nil map: reads find nothing, a write panics) or
  `MapParams.mk f` with `f` the finite-or-not table of entries.
* An accessor returns `Except Panic (result × MapParams)`: the Go return value
  together with the map after the call, or the run-time panic that aborted it.
* A float64 is a sign, a natural significand and a binary exponent (or an
  infinity or NaN), so every operation on it is integer arithmetic.
* `Runtime` collects what the Go tool chain fixes and the source does not: the
  result of a float-to-integer conversion whose value does not fit (the
  language leaves it implementation-dependent), and the `%v` text of a float.
-/

/-- Go `string`; the alias keeps the type apart from the accessor `MapParams.String`. -/
abbrev GoString := String

/-- Signed integer kinds of `reflect`, the ones `isIntKind` accepts. -/
inductive IntKind
  | int | int8 | int16 | int32 | int64
  deriving DecidableEq, Repr

/-- Unsigned integer kinds of `reflect`, the ones `isUintKind` accepts. -/
inductive UintKind
  | uint | uint8 | uint16 | uint32 | uint64
  deriving DecidableEq, Repr

/-- Floating-point kinds of `reflect`, the ones `isFloatKind` accepts. -/
inductive FloatKind
  | float32 | float64
  deriving DecidableEq, Repr

/-- Kinds of the dynamic types that are none of the predeclared string, boolean,
integer, unsigned or float types.  `string` and `bool` stand for defined types
whose underlying type is `string` or `bool`. -/
inductive OtherKind
  | uintptr | complex64 | complex128 | array | chan | func | map | pointer
  | slice | struct | unsafePointer | string | bool
  deriving DecidableEq, Repr

/-- The enumeration `reflect.Kind`. -/
inductive Kind
  | invalid | bool
  | int | int8 | int16 | int32 | int64
  | uint | uint8 | uint16 | uint32 | uint64 | uintptr
  | float32 | float64 | complex64 | complex128
  | array | chan | func | interface | map | pointer | slice | string | struct
  | unsafePointer
  deriving DecidableEq, Repr

/-- A float64 value: `fin neg m e` is `(-1)^neg * m * 2^e` (so `fin true 0 e` is
the negative zero), `inf neg` an infinity, `nan` a NaN.  A float32 is held as
the float64 it widens to. -/
inductive GoFloat64
  | nan
  | inf (neg : Bool)
  | fin (neg : Bool) (mant : Nat) (exp : Int)
  deriving DecidableEq, Repr

/-- What `reflect` reads of a value whose type is not predeclared: a signed,
unsigned or floating-point number when the kind of the type is one of those
(`time.Duration` is an `int64` underneath), and the kind alone otherwise. -/
inductive Underlying
  | int (k : IntKind) (i : Int)
  | uint (k : UintKind) (u : Nat)
  | float (k : FloatKind) (f : GoFloat64)
  | other (k : OtherKind)
  deriving DecidableEq, Repr

/-- A Go `error` value: the name of its dynamic type, the text `Error()` gives,
and the data underneath (a pointer for the errors `fmt.Errorf` makes). -/
structure GoError where
  typ : String
  msg : String
  under : Underlying
  deriving DecidableEq, Repr

/-- A dynamically typed value, the `interface{}` held by the map.  The
constructors `str`, `bool`, `int`, `uint` and `float` are the values of the
predeclared types (`string`, `bool`, `int` ... `float64`); `err` is a value
whose type implements `error`; `other` is a value of any other type, with the
data underneath, the name of the type and the text `%v` prints for the value
(the result of its `String` method when it has one). -/
inductive Value
  | nil
  | str (s : String)
  | bool (b : Bool)
  | int (k : IntKind) (i : Int)
  | uint (k : UintKind) (u : Nat)
  | float (k : FloatKind) (f : GoFloat64)
  | err (e : GoError)
  | other (u : Underlying) (typ : String) (text : String)
  deriving DecidableEq, Repr

/-- A run-time panic. -/
inductive Panic
  | nilMapWrite
  | typeAssertion
  deriving DecidableEq, Repr

/-- The type `MapParams`, a `map[string]interface{}`: the nil map or a table. -/
inductive MapParams
  | nil
  | mk (entries : String → Option Value)

/-- How the platform converts a float that no int64 can hold: x86-64 yields the
"integer indefinite" value `-2^63` in every such case, the other 64-bit targets
saturate (and turn NaN into 0). -/
inductive ConvMode
  | indefinite | saturating
  deriving DecidableEq, Repr

/-- What the tool chain fixes and the source does not: `conv`, the behaviour of
a float-to-integer conversion that does not fit, and `fmtFloat`, the text the
package `fmt` prints with `%v` for a value of type `float32` or `float64` (the
shortest decimal that reads back as the same float). -/
structure Runtime where
  conv : ConvMode
  fmtFloat : FloatKind → GoFloat64 → String

def maxInt64 : Int := 9223372036854775807

def minInt64 : Int := -9223372036854775808

def IntKind.name : IntKind → String
  | .int => "int" | .int8 => "int8" | .int16 => "int16" | .int32 => "int32"
  | .int64 => "int64"

def UintKind.name : UintKind → String
  | .uint => "uint" | .uint8 => "uint8" | .uint16 => "uint16" | .uint32 => "uint32"
  | .uint64 => "uint64"

def FloatKind.name : FloatKind → String
  | .float32 => "float32" | .float64 => "float64"

def IntKind.kind : IntKind → Kind
  | .int => .int | .int8 => .int8 | .int16 => .int16 | .int32 => .int32
  | .int64 => .int64

def UintKind.kind : UintKind → Kind
  | .uint => .uint | .uint8 => .uint8 | .uint16 => .uint16 | .uint32 => .uint32
  | .uint64 => .uint64

def FloatKind.kind : FloatKind → Kind
  | .float32 => .float32 | .float64 => .float64

def OtherKind.kind : OtherKind → Kind
  | .uintptr => .uintptr | .complex64 => .complex64 | .complex128 => .complex128
  | .array => .array | .chan => .chan | .func => .func | .map => .map
  | .pointer => .pointer | .slice => .slice | .struct => .struct
  | .unsafePointer => .unsafePointer | .string => .string | .bool => .bool

def Underlying.kind : Underlying → Kind
  | .int k _ => k.kind
  | .uint k _ => k.kind
  | .float k _ => k.kind
  | .other k => k.kind

/-- The kind `reflect.ValueOf(v).Kind()`. -/
def Value.kind : Value → Kind
  | .nil => .invalid
  | .str _ => .string
  | .bool _ => .bool
  | .int k _ => k.kind
  | .uint k _ => k.kind
  | .float k _ => k.kind
  | .err e => e.under.kind
  | .other u _ _ => u.kind

/-- The text `%v` gives for `reflect.TypeOf(v)`: the name of the dynamic type. -/
def Value.typeName : Value → String
  | .nil => "<nil>"
  | .str _ => "string"
  | .bool _ => "bool"
  | .int k _ => k.name
  | .uint k _ => k.name
  | .float k _ => k.name
  | .err e => e.typ
  | .other _ typ _ => typ

/-- The text `%v` gives for the value itself: the default format of a value of
a predeclared type, the result of `Error()` for an error, and for any other
value the text it carries. -/
def Value.fmtV (rt : Runtime) : Value → String
  | .nil => "<nil>"
  | .str s => s
  | .bool b => if b then "true" else "false"
  | .int _ i => toString i
  | .uint _ u => toString u
  | .float k f => rt.fmtFloat k f
  | .err e => e.msg
  | .other _ _ text => text

def isIntKind (v : Value) : Bool :=
  let k := v.kind
  k = .int || k = .int8 || k = .int16 || k = .int32 || k = .int64

def isUintKind (v : Value) : Bool :=
  let k := v.kind
  k = .uint || k = .uint8 || k = .uint16 || k = .uint32 || k = .uint64

def isFloatKind (v : Value) : Bool :=
  let k := v.kind
  k = .float32 || k = .float64

def Underlying.Int : Underlying → Int
  | .int _ i => i
  | _ => 0

def Underlying.Uint : Underlying → Nat
  | .uint _ u => u
  | _ => 0

def Underlying.Float : Underlying → GoFloat64
  | .float _ f => f
  | _ => .fin false 0 0

/-- The method `reflect.Value.Int`: the value as an int64 (0 stands for the
panic on a kind that is not a signed integer, which no caller here reaches). -/
def Value.Int : Value → Int
  | .int _ i => i
  | .err e => e.under.Int
  | .other u _ _ => u.Int
  | _ => 0

/-- The method `reflect.Value.Uint`. -/
def Value.Uint : Value → Nat
  | .uint _ u => u
  | .err e => e.under.Uint
  | .other u _ _ => u.Uint
  | _ => 0

/-- The method `reflect.Value.Float`. -/
def Value.Float : Value → GoFloat64
  | .float _ f => f
  | .err e => e.under.Float
  | .other u _ _ => u.Float
  | _ => .fin false 0 0

/-! Floating point -/

/-- The integer part of the magnitude `m * 2^e`, rounded toward zero. -/
def magTrunc (m : Nat) (e : Int) : Nat :=
  if 0 ≤ e then m * 2 ^ e.toNat else m / 2 ^ (-e).toNat

/-- The integer of magnitude `t` and sign `s` (true for negative). -/
def signedMag (s : Bool) (t : Nat) : Int :=
  if s then -(t : Int) else (t : Int)

/-- The function `math.Trunc`: the integer part, sign kept; infinities and NaN
are returned as they are. -/
def GoFloat64.trunc : GoFloat64 → GoFloat64
  | .fin s m e => .fin s (magTrunc m e) 0
  | f => f

/-- Go `==` on floats: NaN equals nothing, the two zeros are equal, and finite
values are compared numerically (`m1 * 2^e1 = m2 * 2^e2`, scaled to integers). -/
def GoFloat64.eq : GoFloat64 → GoFloat64 → Bool
  | .fin s1 m1 e1, .fin s2 m2 e2 =>
    let a := m1 * 2 ^ (e1 - min e1 e2).toNat
    let b := m2 * 2 ^ (e2 - min e1 e2).toNat
    a = b && (s1 = s2 || a = 0)
  | .inf s1, .inf s2 => s1 = s2
  | _, _ => false

/-- The result of `int64(f)` when `f` is not a number an int64 holds. -/
def convOverflow : ConvMode → Bool → Int
  | .indefinite, _ => minInt64
  | .saturating, true => minInt64
  | .saturating, false => maxInt64

/-- The conversion `int64(f)`: the value truncated toward zero when an int64
holds it, the platform's answer otherwise. -/
def GoFloat64.toInt64 (c : ConvMode) : GoFloat64 → Int
  | .fin s m e =>
    let t := signedMag s (magTrunc m e)
    if minInt64 ≤ t ∧ t ≤ maxInt64 then t else convOverflow c s
  | .inf s => convOverflow c s
  | .nan => match c with
    | .indefinite => minInt64
    | .saturating => 0

/-- The number of low bits of `a` to drop so that 53 bits remain (`fuel` bounds
the recursion; `a` itself is enough). -/
def dropBits : Nat → Nat → Nat
  | 0, _ => 0
  | fuel + 1, a => if a < 2 ^ 53 then 0 else dropBits fuel (a / 2) + 1

/-- Round a natural number to a 53-bit significand and a binary exponent, to
nearest and on a tie to the even significand. -/
def roundNat (a : Nat) : Nat × Nat :=
  if a < 2 ^ 53 then (a, 0)
  else
    let sh := dropBits a a
    let q := a / 2 ^ sh
    let r := a % 2 ^ sh
    let half := 2 ^ (sh - 1)
    let q1 := if half < r ∨ (r = half ∧ q % 2 = 1) then q + 1 else q
    if q1 = 2 ^ 53 then (2 ^ 52, sh + 1) else (q1, sh)

/-- The conversion `float64(u)` of an unsigned integer. -/
def GoFloat64.ofNat (u : Nat) : GoFloat64 :=
  .fin false (roundNat u).1 (roundNat u).2

/-- The conversion `float64(i)` of a signed integer. -/
def GoFloat64.ofInt (i : Int) : GoFloat64 :=
  .fin (decide (i < 0)) (roundNat i.natAbs).1 (roundNat i.natAbs).2

/-- The float `f` is finite, has no fractional part, and its value is the
integer `n`: `(-1)^s * m * 2^e = n`, both sides scaled to integers. -/
def GoFloat64.IsInt : GoFloat64 → Int → Prop
  | .fin s m e, n =>
    signedMag s m * 2 ^ e.toNat = n * 2 ^ (-e).toNat
  | _, _ => False

instance (f : GoFloat64) (n : Int) : Decidable (f.IsInt n) := by
  cases f <;> unfold GoFloat64.IsInt <;> infer_instance

/-! The map -/

/-- The read `v, ok := m[key]`; a nil map has no entry. -/
def MapParams.lookup : MapParams → GoString → Option Value
  | .nil, _ => none
  | .mk f, key => f key

/-- The write `m[key] = v`: it panics on a nil map. -/
def MapParams.store : MapParams → GoString → Value → Except Panic MapParams
  | .nil, _, _ => .error .nilMapWrite
  | .mk f, key, v => .ok (.mk (fun k => if k = key then some v else f k))

/-! The source functions -/

def missingKeyError (jsonType key : GoString) : GoError :=
  { typ := "*errors.errorString"
    msg := "looking for a " ++ jsonType ++ " in job.Arg[" ++ key ++ "] but key wasn't found"
    under := .other .pointer }

def typecastError (rt : Runtime) (jsonType key : GoString) (v : Value) : GoError :=
  let actualType := v.typeName
  { typ := "*errors.errorString"
    msg := "looking for a " ++ jsonType ++ " in job.Arg[" ++ key ++
      "] but value wasn't right type: " ++ actualType ++ "(" ++ v.fmtV rt ++ ")"
    under := .other .pointer }

/-- The method `Error`: the stored error, `none` for Go's nil; the assertion
`err.(error)` panics when the entry is not an error. -/
def MapParams.Error (m : MapParams) : Except Panic (Option GoError) :=
  match m.lookup "$_error" with
  | some v =>
    match v with
    | .err e => .ok (some e)
    | _ => .error .typeAssertion
  | none => .ok none

def MapParams.String (rt : Runtime) (m : MapParams) (key : GoString) :
    Except Panic (GoString × MapParams) :=
  match m.lookup key with
  | some v =>
    match v with
    | .str typedV => .ok (typedV, m)
    | _ => do
      let m1 ← m.store "$_error" (.err (typecastError rt "string" key v))
      pure ("", m1)
  | none => do
    let m1 ← m.store "$_error" (.err (missingKeyError "string" key))
    pure ("", m1)

def MapParams.Bool (rt : Runtime) (m : MapParams) (key : GoString) :
    Except Panic (Bool × MapParams) :=
  match m.lookup key with
  | some v =>
    match v with
    | .bool typedV => .ok (typedV, m)
    | _ => do
      let m1 ← m.store "$_error" (.err (typecastError rt "bool" key v))
      pure (false, m1)
  | none => do
    let m1 ← m.store "$_error" (.err (missingKeyError "bool" key))
    pure (false, m1)

def MapParams.Int64 (rt : Runtime) (m : MapParams) (key : GoString) :
    Except Panic (Int × MapParams) :=
  match m.lookup key with
  | some v =>
    let fail : Except Panic (Int × MapParams) := do
      let m1 ← m.store "$_error" (.err (typecastError rt "int64" key v))
      pure (0, m1)
    if isIntKind v then
      .ok (v.Int, m)
    else if isUintKind v then
      let vUint := v.Uint
      if (vUint : Int) ≤ maxInt64 then .ok ((vUint : Int), m) else fail
    else if isFloatKind v then
      let vFloat64 := v.Float
      let vInt64 := vFloat64.toInt64 rt.conv
      if vFloat64.eq vFloat64.trunc ∧ vInt64 ≤ 9007199254740892 ∧
          vInt64 ≥ -9007199254740892 then
        .ok (vInt64, m)
      else fail
    else fail
  | none => do
    let m1 ← m.store "$_error" (.err (missingKeyError "int64" key))
    pure (0, m1)

def MapParams.Float64 (rt : Runtime) (m : MapParams) (key : GoString) :
    Except Panic (GoFloat64 × MapParams) :=
  match m.lookup key with
  | some v =>
    if isIntKind v then
      .ok (GoFloat64.ofInt v.Int, m)
    else if isUintKind v then
      .ok (GoFloat64.ofNat v.Uint, m)
    else if isFloatKind v then
      .ok (v.Float, m)
    else do
      let m1 ← m.store "$_error" (.err (typecastError rt "float64" key v))
      pure (.fin false 0 0, m1)
  | none => do
    let m1 ← m.store "$_error" (.err (missingKeyError "float64" key))
    pure (.fin false 0 0, m1)

/-! Vocabulary of the properties -/

/-- The four typed accessors. -/
inductive Accessor
  | string | bool | int64 | float64
  deriving DecidableEq, Repr

/-- A value returned by one of the accessors. -/
inductive Ret
  | str (s : GoString)
  | bool (b : Bool)
  | int (i : Int)
  | float (f : GoFloat64)
  deriving DecidableEq, Repr

/-- The type name an accessor passes to `missingKeyError` and `typecastError`. -/
def Accessor.jsonType : Accessor → GoString
  | .string => "string" | .bool => "bool" | .int64 => "int64" | .float64 => "float64"

/-- The value an accessor returns on its failure path. -/
def Accessor.zero : Accessor → Ret
  | .string => .str "" | .bool => .bool false | .int64 => .int 0
  | .float64 => .float (.fin false 0 0)

/-- Run the accessor `a` as the method of that name. -/
def call (rt : Runtime) (a : Accessor) (m : MapParams) (key : GoString) :
    Except Panic (Ret × MapParams) :=
  match a with
  | .string => (m.String rt key).map fun r => (.str r.1, r.2)
  | .bool => (m.Bool rt key).map fun r => (.bool r.1, r.2)
  | .int64 => (m.Int64 rt key).map fun r => (.int r.1, r.2)
  | .float64 => (m.Float64 rt key).map fun r => (.float r.1, r.2)

/-- The values on which an accessor takes one of its `return typedV` paths: the
conditions of the source, branch by branch. -/
def Accessor.accepts (rt : Runtime) : Accessor → Value → Bool
  | .string, v => match v with
    | .str _ => true
    | _ => false
  | .bool, v => match v with
    | .bool _ => true
    | _ => false
  | .int64, v =>
    if isIntKind v then true
    else if isUintKind v then decide ((v.Uint : Int) ≤ maxInt64)
    else if isFloatKind v then
      v.Float.eq v.Float.trunc && decide (v.Float.toInt64 rt.conv ≤ 9007199254740892) &&
        decide (v.Float.toInt64 rt.conv ≥ -9007199254740892)
    else false
  | .float64, v => isIntKind v || isUintKind v || isFloatKind v

/-- The error a failing call of `a` with `key` builds when the read found `found`. -/
def Accessor.errorFor (rt : Runtime) (a : Accessor) (key : GoString) (found : Option Value) :
    GoError :=
  match found with
  | some v => typecastError rt a.jsonType key v
  | none => missingKeyError a.jsonType key

/-- The outcome `out` of a call on `m` is a failure with error `e`: the call
returned `zero`, the map it leaves is `m` with `e` stored under `"$_error"`, and
`Error()` on that map returns `e`. -/
def FailsWith {α : Type} (out : Except Panic (α × MapParams)) (m : MapParams) (zero : α)
    (e : GoError) : Prop :=
  ∃ m1, out = .ok (zero, m1) ∧ m.store "$_error" (.err e) = .ok m1 ∧ m1.Error = .ok (some e)

/-- The call of `a` with `key` on `m` failed: its key was missing or held a
value the accessor does not accept, and it returned. -/
def CallFails (rt : Runtime) (a : Accessor) (m : MapParams) (key : GoString)
    (m1 : MapParams) : Prop :=
  call rt a m key = .ok (a.zero, m1) ∧ ∀ v, m.lookup key = some v → a.accepts rt v = false

/-- A runtime for the concrete examples: x86-64 conversions; the float printer
is left blank. -/
def sampleRuntime : Runtime := ⟨.indefinite, fun _ _ => ""⟩

/-- The map with the single entry `key ↦ v`. -/
def single (key : GoString) (v : Value) : MapParams :=
  .mk fun k => if k = key then some v else none

/-- The method `Error` as a step on the map: the result together with the map
after the call.  The body has no assignment, so that map is the receiver. -/
def MapParams.ErrorStep (m : MapParams) : Except Panic (Option GoError × MapParams) :=
  match m.lookup "$_error" with
  | some v =>
    match v with
    | .err e => .ok (some e, m)
    | _ => .error .typeAssertion
  | none => .ok (none, m)

/-- Run a sequence of accessor calls one after the other on the same map; a
panic aborts the sequence. -/
def runCalls (rt : Runtime) : List (Accessor × GoString) → MapParams →
    Except Panic (List Ret × MapParams)
  | [], m => .ok ([], m)
  | c :: cs, m =>
    match call rt c.1 m c.2 with
    | .error p => .error p
    | .ok (r, m1) =>
      match runCalls rt cs m1 with
      | .error p => .error p
      | .ok (rs, m2) => .ok (r :: rs, m2)

/-- The call of `a` with `key` on `m` is a failing one: the key is missing or
holds a value the accessor does not accept. -/
def keyFails (rt : Runtime) (a : Accessor) (m : MapParams) (key : GoString) : Bool :=
  match m.lookup key with
  | some v => !a.accepts rt v
  | none => true

/-- At least one call of the sequence, run from `m`, is a failing one (each call
is judged on the map the calls before it have left). -/
def anyFailed (rt : Runtime) : List (Accessor × GoString) → MapParams → Bool
  | [], _ => false
  | c :: cs, m =>
    keyFails rt c.1 m c.2 ||
      match call rt c.1 m c.2 with
      | .ok (_, m1) => anyFailed rt cs m1
      | .error _ => false

/-- The integer `n` is exactly a float64: the conversion `float64(n)` has the
value `n`. -/
def ExactFloat (n : Int) : Prop :=
  (GoFloat64.ofInt n).IsInt n

instance (n : Int) : Decidable (ExactFloat n) := by
  unfold ExactFloat; infer_instance

/-- The map with storage and no entry. -/
def emptyMap : MapParams := .mk fun _ => none

/-- The message `msg` cites `piece`: the piece occurs in it. -/
def Cites (msg piece : String) : Prop :=
  ∃ pre post, msg = pre ++ piece ++ post

/-- The error `e` is the type-mismatch error for the requested type `T`, the key
`k` and the value `v` found: its message is the fixed wording around the four
of them, so it cites the requested type, the key, the run-time type of `v` and
the text of `v`. -/
def TypeMismatch (rt : Runtime) (e : GoError) (T k : GoString) (v : Value) : Prop :=
  e.msg = "looking for a " ++ T ++ " in job.Arg[" ++ k ++ "] but value wasn't right type: " ++
      v.typeName ++ "(" ++ v.fmtV rt ++ ")" ∧
    Cites e.msg T ∧ Cites e.msg k ∧ Cites e.msg v.typeName ∧ Cites e.msg (v.fmtV rt)

/-- The function `math.Signbit`: the sign bit of a float (NaN taken as unsigned). -/
def GoFloat64.signbit : GoFloat64 → Bool
  | .fin s _ _ => s
  | .inf s => s
  | .nan => false

/-- Two floats are the same float64: `==` and of the same sign bit (so the two
zeros, which are `==`, are not the same). -/
def GoFloat64.same (a b : GoFloat64) : Bool :=
  a.eq b && (a.signbit == b.signbit)

/-! Theorems -/

theorem lookup_some_mk {m : MapParams} {k : GoString} {v : Value} (h : m.lookup k = some v) :
    ∃ f, m = .mk f ∧ f k = some v := by
  cases m with
  | nil => simp [MapParams.lookup] at h
  | mk f => exact ⟨f, rfl, h⟩

theorem error_after_store (f : String → Option Value) (e : GoError) :
    (MapParams.mk fun k => if k = "$_error" then some (.err e) else f k).Error
      = .ok (some e) := by
  simp [MapParams.Error, MapParams.lookup]

theorem failsWith_store {α : Type} (f : String → Option Value) (z : α) (e : GoError) :
    FailsWith (do
        let m1 ← (MapParams.mk f).store "$_error" (.err e)
        pure (z, m1)) (MapParams.mk f) z e := by
  refine ⟨.mk fun k => if k = "$_error" then some (.err e) else f k, rfl, rfl, ?_⟩
  exact error_after_store f e

theorem failsWith_of_lookup_none {α : Type} {m : MapParams} (hm : m ≠ .nil) (z : α)
    (e : GoError) :
    FailsWith (do
        let m1 ← m.store "$_error" (.err e)
        pure (z, m1)) m z e := by
  cases m with
  | nil => exact absurd rfl hm
  | mk f => exact failsWith_store f z e

/-- C1 (as amended): on a map that is not nil, for a key that is absent, each of
`String`, `Bool`, `Int64` and `Float64` returns its zero value, stores a
missing-key error, and `Error()` afterwards returns that error, whose message
is "looking for a T in job.Arg[k] but key wasn't found" with T the requested
type. -/
theorem missing_key_records_error (rt : Runtime) (m : MapParams) (k : GoString)
    (hm : m ≠ .nil) (h : m.lookup k = none) :
    FailsWith (m.String rt k) m "" (missingKeyError "string" k) ∧
    FailsWith (m.Bool rt k) m false (missingKeyError "bool" k) ∧
    FailsWith (m.Int64 rt k) m 0 (missingKeyError "int64" k) ∧
    FailsWith (m.Float64 rt k) m (.fin false 0 0) (missingKeyError "float64" k) ∧
    ∀ T : GoString, (missingKeyError T k).msg =
      "looking for a " ++ T ++ " in job.Arg[" ++ k ++ "] but key wasn't found" := by
  refine ⟨?_, ?_, ?_, ?_, fun _ => rfl⟩
  · simp only [MapParams.String, h]
    exact failsWith_of_lookup_none hm _ _
  · simp only [MapParams.Bool, h]
    exact failsWith_of_lookup_none hm _ _
  · simp only [MapParams.Int64, h]
    exact failsWith_of_lookup_none hm _ _
  · simp only [MapParams.Float64, h]
    exact failsWith_of_lookup_none hm _ _

/-- Witness of C1: the map with the one entry "a" and the absent key "b". -/
theorem missing_key_records_error_witness :
    FailsWith ((single "a" (.str "x")).String sampleRuntime "b") (single "a" (.str "x")) ""
      (missingKeyError "string" "b") ∧
    FailsWith ((single "a" (.str "x")).Bool sampleRuntime "b") (single "a" (.str "x")) false
      (missingKeyError "bool" "b") ∧
    FailsWith ((single "a" (.str "x")).Int64 sampleRuntime "b") (single "a" (.str "x")) 0
      (missingKeyError "int64" "b") ∧
    FailsWith ((single "a" (.str "x")).Float64 sampleRuntime "b") (single "a" (.str "x"))
      (.fin false 0 0) (missingKeyError "float64" "b") ∧
    ∀ T : GoString, (missingKeyError T "b").msg =
      "looking for a " ++ T ++ " in job.Arg[" ++ "b" ++ "] but key wasn't found" :=
  missing_key_records_error sampleRuntime (single "a" (.str "x")) "b"
    (by simp [single]) (by simp [single, MapParams.lookup])

/-- C1 as stated fails on the nil map: every key is absent from it, and each
accessor panics on the write of the error instead of returning. -/
theorem missing_key_nil_map_panics :
    MapParams.lookup .nil "k" = none ∧
    MapParams.String sampleRuntime .nil "k" = .error .nilMapWrite ∧
    MapParams.Bool sampleRuntime .nil "k" = .error .nilMapWrite ∧
    MapParams.Int64 sampleRuntime .nil "k" = .error .nilMapWrite ∧
    MapParams.Float64 sampleRuntime .nil "k" = .error .nilMapWrite :=
  ⟨rfl, rfl, rfl, rfl, rfl⟩

theorem failsWith_of_lookup_some {α : Type} {m : MapParams} {k : GoString} {v : Value}
    (h : m.lookup k = some v) (z : α) (e : GoError) :
    FailsWith (do
        let m1 ← m.store "$_error" (.err e)
        pure (z, m1)) m z e := by
  obtain ⟨f, rfl, -⟩ := lookup_some_mk h
  exact failsWith_store f z e

/-- The error `typecastError` builds is the type-mismatch error for its arguments. -/
theorem typeMismatch_typecastError (rt : Runtime) (T k : GoString) (v : Value) :
    TypeMismatch rt (typecastError rt T k v) T k v := by
  refine ⟨rfl, ?_, ?_, ?_, ?_⟩
  · exact ⟨"looking for a ", " in job.Arg[" ++ k ++ "] but value wasn't right type: " ++
      v.typeName ++ "(" ++ v.fmtV rt ++ ")", by simp only [typecastError, String.append_assoc]⟩
  · exact ⟨"looking for a " ++ T ++ " in job.Arg[", "] but value wasn't right type: " ++
      v.typeName ++ "(" ++ v.fmtV rt ++ ")", by simp only [typecastError, String.append_assoc]⟩
  · exact ⟨"looking for a " ++ T ++ " in job.Arg[" ++ k ++ "] but value wasn't right type: ",
      "(" ++ v.fmtV rt ++ ")", by simp only [typecastError, String.append_assoc]⟩
  · exact ⟨"looking for a " ++ T ++ " in job.Arg[" ++ k ++ "] but value wasn't right type: " ++
      v.typeName ++ "(", ")", by simp only [typecastError, String.append_assoc]⟩

/-- C2: for a key present with a value of a mismatched type (`String` on a value
that is not a string, `Bool` on one that is not a boolean, `Int64` and
`Float64` on one that is neither signed-, unsigned- nor float-kinded) the
accessor returns its zero value and stores an error that `Error()` then
returns; the message of that error is the type-mismatch wording and cites the
requested type, the key, the run-time type of the value found and the value. -/
theorem type_mismatch_records_error (rt : Runtime) (m : MapParams) (k : GoString) (v : Value)
    (h : m.lookup k = some v) :
    ((∀ s, v ≠ .str s) →
      ∃ e, FailsWith (m.String rt k) m "" e ∧ TypeMismatch rt e "string" k v) ∧
    ((∀ b, v ≠ .bool b) →
      ∃ e, FailsWith (m.Bool rt k) m false e ∧ TypeMismatch rt e "bool" k v) ∧
    (isIntKind v = false → isUintKind v = false → isFloatKind v = false →
      (∃ e, FailsWith (m.Int64 rt k) m 0 e ∧ TypeMismatch rt e "int64" k v) ∧
      (∃ e, FailsWith (m.Float64 rt k) m (.fin false 0 0) e ∧
        TypeMismatch rt e "float64" k v)) := by
  refine ⟨?_, ?_, ?_⟩
  · intro hv
    refine ⟨typecastError rt "string" k v, ?_, typeMismatch_typecastError rt _ k v⟩
    cases v with
    | str s => exact absurd rfl (hv s)
    | _ =>
      simp only [MapParams.String, h]
      exact failsWith_of_lookup_some h _ _
  · intro hv
    refine ⟨typecastError rt "bool" k v, ?_, typeMismatch_typecastError rt _ k v⟩
    cases v with
    | bool b => exact absurd rfl (hv b)
    | _ =>
      simp only [MapParams.Bool, h]
      exact failsWith_of_lookup_some h _ _
  · intro hi hu hf
    constructor
    · refine ⟨typecastError rt "int64" k v, ?_, typeMismatch_typecastError rt _ k v⟩
      simp only [MapParams.Int64, h, hi, hu, hf, Bool.false_eq_true, if_false]
      exact failsWith_of_lookup_some h _ _
    · refine ⟨typecastError rt "float64" k v, ?_, typeMismatch_typecastError rt _ k v⟩
      simp only [MapParams.Float64, h, hi, hu, hf, Bool.false_eq_true, if_false]
      exact failsWith_of_lookup_some h _ _

/-- Witness of C2: `String` on an entry that holds a `time.Duration` of 1.5
seconds (an `int64` underneath, printed by its `String` method), and the text
of the error `Error()` returns after it; `Bool` on a string entry. -/
theorem type_mismatch_records_error_witness :
    (∃ e, FailsWith
        ((single "d" (.other (.int .int64 1500000000) "time.Duration" "1.5s")).String
          sampleRuntime "d")
        (single "d" (.other (.int .int64 1500000000) "time.Duration" "1.5s")) "" e ∧
      TypeMismatch sampleRuntime e "string" "d"
        (.other (.int .int64 1500000000) "time.Duration" "1.5s")) ∧
    (((single "d" (.other (.int .int64 1500000000) "time.Duration" "1.5s")).String
        sampleRuntime "d").bind fun r => r.2.Error) =
      .ok (some ⟨"*errors.errorString",
        "looking for a string in job.Arg[d] but value wasn't right type: time.Duration(1.5s)",
        .other .pointer⟩) ∧
    (((single "s" (.str "yes")).Bool sampleRuntime "s").bind fun r => r.2.Error) =
      .ok (some ⟨"*errors.errorString",
        "looking for a bool in job.Arg[s] but value wasn't right type: string(yes)",
        .other .pointer⟩) :=
  ⟨(type_mismatch_records_error sampleRuntime
      (single "d" (.other (.int .int64 1500000000) "time.Duration" "1.5s")) "d"
      (.other (.int .int64 1500000000) "time.Duration" "1.5s")
      (by simp [single, MapParams.lookup])).1 (by simp),
   by rfl, by rfl⟩

theorem scaled_eq_iff (s : Bool) (m P : Nat) (n : Int) (hP : 0 < P) :
    signedMag s m = n * (P : Int) ↔ m = m / P * P ∧ n = signedMag s (m / P) := by
  have hP0 : (P : Int) ≠ 0 := by exact_mod_cast hP.ne'
  unfold signedMag
  constructor
  · intro h
    have hdvd : (P : Int) ∣ (m : Int) := by
      cases s
      · exact ⟨n, by simpa [mul_comm] using h⟩
      · exact ⟨-n, by simp at h; rw [mul_neg, mul_comm, ← h]; simp⟩
    have hd : P ∣ m := Int.natCast_dvd_natCast.mp hdvd
    obtain ⟨q, rfl⟩ := hd
    have hq : P * q / P = q := Nat.mul_div_cancel_left q hP
    refine ⟨by rw [hq, mul_comm], ?_⟩
    rw [hq]
    cases s
    · simp only [Bool.false_eq_true, if_false] at h ⊢
      have : (q : Int) * P = n * P := by rw [← h]; push_cast; ring
      exact (mul_right_cancel₀ hP0 this).symm
    · simp only [if_true] at h ⊢
      have : (-(q : Int)) * P = n * P := by rw [← h]; push_cast; ring
      exact (mul_right_cancel₀ hP0 this).symm
  · rintro ⟨h1, rfl⟩
    cases s
    · simp only [Bool.false_eq_true, if_false]
      exact_mod_cast h1
    · simp only [if_true]
      rw [neg_mul]
      congr 1
      exact_mod_cast h1

theorem isInt_iff (s : Bool) (m : Nat) (e : Int) (n : Int) :
    (GoFloat64.fin s m e).IsInt n ↔
      ((GoFloat64.fin s m e).eq (GoFloat64.fin s m e).trunc = true ∧
        n = signedMag s (magTrunc m e)) := by
  rcases le_or_lt 0 e with h | h
  · obtain ⟨E, rfl⟩ := Int.eq_ofNat_of_zero_le h
    simp [GoFloat64.IsInt, GoFloat64.eq, GoFloat64.trunc, magTrunc, signedMag]
    cases s <;> simp [eq_comm]
  · obtain ⟨D, rfl⟩ : ∃ D : ℕ, e = -((D : Int) + 1) := ⟨(-e - 1).toNat, by omega⟩
    have hD : (-(-((D : Int) + 1))).toNat = D + 1 := by omega
    have h0 : (-((D : Int) + 1)).toNat = 0 := by omega
    have hmin : min (-((D : Int) + 1)) 0 = -((D : Int) + 1) := by omega
    have hnot : ¬ (0 ≤ -((D : Int) + 1)) := by omega
    have key := scaled_eq_iff s m (2 ^ (D + 1)) n (by positivity)
    simp only [GoFloat64.IsInt, GoFloat64.eq, GoFloat64.trunc, magTrunc, hD, h0, hmin,
      hnot, if_false, sub_self, Int.toNat_zero, pow_zero, mul_one, zero_sub, Bool.or_true,
      Bool.and_true, decide_eq_true_eq, true_or, Bool.true_or, decide_True]
    push_cast at key
    exact key

theorem convOverflow_out (c : ConvMode) (s : Bool) :
    convOverflow c s < -9007199254740892 ∨ 9007199254740892 < convOverflow c s := by
  cases c <;> cases s <;> simp [convOverflow, minInt64, maxInt64]

theorem float_accept (c : ConvMode) (f : GoFloat64) (n : Int) (h : f.IsInt n)
    (hlo : -9007199254740892 ≤ n) (hhi : n ≤ 9007199254740892) :
    f.eq f.trunc = true ∧ f.toInt64 c = n := by
  cases f with
  | nan => exact absurd h (by simp [GoFloat64.IsInt])
  | inf s => exact absurd h (by simp [GoFloat64.IsInt])
  | fin s m e =>
    obtain ⟨h1, h2⟩ := (isInt_iff s m e n).mp h
    refine ⟨h1, ?_⟩
    have : minInt64 ≤ n ∧ n ≤ maxInt64 := by
      constructor <;> simp only [minInt64, maxInt64] <;> omega
    simp only [GoFloat64.toInt64, ← h2, this, and_self, if_true]

theorem float_reject (c : ConvMode) (f : GoFloat64) (h : f.eq f.trunc = true)
    (hhi : f.toInt64 c ≤ 9007199254740892) (hlo : f.toInt64 c ≥ -9007199254740892) :
    f.IsInt (f.toInt64 c) := by
  cases f with
  | nan => simp [GoFloat64.eq] at h
  | inf s =>
    rcases convOverflow_out c s with h' | h' <;> simp only [GoFloat64.toInt64] at hhi hlo <;> omega
  | fin s m e =>
    by_cases hr : minInt64 ≤ signedMag s (magTrunc m e) ∧ signedMag s (magTrunc m e) ≤ maxInt64
    · simp only [GoFloat64.toInt64, hr, and_self, if_true]
      exact (isInt_iff s m e _).mpr ⟨h, rfl⟩
    · simp only [GoFloat64.toInt64, hr, if_false] at hhi hlo
      rcases convOverflow_out c s with h' | h' <;> omega

theorem isIntKind_int (ik : IntKind) (i : Int) : isIntKind (.int ik i) = true := by
  cases ik <;> rfl

theorem kinds_uint (uk : UintKind) (u : Nat) :
    isIntKind (.uint uk u) = false ∧ isUintKind (.uint uk u) = true := by
  cases uk <;> exact ⟨rfl, rfl⟩

theorem kinds_float (fk : FloatKind) (f : GoFloat64) :
    isIntKind (.float fk f) = false ∧ isUintKind (.float fk f) = false ∧
      isFloatKind (.float fk f) = true := by
  cases fk <;> exact ⟨rfl, rfl, rfl⟩

/-- No kind is two of signed integer, unsigned integer and float. -/
theorem kinds_exclusive (v : Value) :
    (isIntKind v = true → isUintKind v = false ∧ isFloatKind v = false) ∧
    (isUintKind v = true → isIntKind v = false ∧ isFloatKind v = false) ∧
    (isFloatKind v = true → isIntKind v = false ∧ isUintKind v = false) := by
  unfold isIntKind isUintKind isFloatKind
  generalize v.kind = k
  cases k <;> decide

/-- C3: for a float-kinded entry (of type `float32`, `float64` or any type of
those kinds) with value `f`, `Int64` returns `n` and leaves the map as it is
when `f` has no fractional part and its integer value `n` lies in
`[-9007199254740892, 9007199254740892]`; in every other case (a fractional
part, a value outside the interval, an infinity, a NaN) it returns 0 and
records a type-mismatch error. -/
theorem int64_of_float (rt : Runtime) (m : MapParams) (k : GoString) (v : Value)
    (h : m.lookup k = some v) (hk : isFloatKind v = true) :
    (∀ n : Int, v.Float.IsInt n → -9007199254740892 ≤ n → n ≤ 9007199254740892 →
      m.Int64 rt k = .ok (n, m)) ∧
    ((¬ ∃ n : Int, v.Float.IsInt n ∧ -9007199254740892 ≤ n ∧ n ≤ 9007199254740892) →
      FailsWith (m.Int64 rt k) m 0 (typecastError rt "int64" k v)) := by
  obtain ⟨hi, hu⟩ := (kinds_exclusive v).2.2 hk
  constructor
  · intro n hn hlo hhi
    obtain ⟨h1, h2⟩ := float_accept rt.conv v.Float n hn hlo hhi
    simp only [MapParams.Int64, h, hi, hu, hk, Bool.false_eq_true, if_false, if_true,
      h1, h2, hlo, hhi, ge_iff_le, and_self]
  · intro hno
    have hc : ¬ (v.Float.eq v.Float.trunc = true ∧ v.Float.toInt64 rt.conv ≤ 9007199254740892 ∧
        v.Float.toInt64 rt.conv ≥ -9007199254740892) := by
      rintro ⟨h1, h2, h3⟩
      exact hno ⟨_, float_reject rt.conv v.Float h1 h2 h3, h3, h2⟩
    simp only [MapParams.Int64, h, hi, hu, hk, Bool.false_eq_true, if_false, if_true, hc]
    exact failsWith_of_lookup_some h _ _

/-- Witness of C3: 3.0 gives 3 and leaves the map alone; 3.5 and
9007199254740893.0 give 0 and a type-mismatch error. -/
theorem int64_of_float_witness :
    (single "x" (.float .float64 (.fin false 3 0))).Int64 sampleRuntime "x"
      = .ok (3, single "x" (.float .float64 (.fin false 3 0))) ∧
    FailsWith ((single "x" (.float .float64 (.fin false 7 (-1)))).Int64 sampleRuntime "x")
      (single "x" (.float .float64 (.fin false 7 (-1)))) 0
      (typecastError sampleRuntime "int64" "x" (.float .float64 (.fin false 7 (-1)))) ∧
    FailsWith
      ((single "x" (.float .float64 (.fin false 9007199254740893 0))).Int64 sampleRuntime "x")
      (single "x" (.float .float64 (.fin false 9007199254740893 0))) 0
      (typecastError sampleRuntime "int64" "x"
        (.float .float64 (.fin false 9007199254740893 0))) :=
  ⟨(int64_of_float sampleRuntime _ "x" (.float .float64 (.fin false 3 0))
      (by simp [single, MapParams.lookup]) rfl).1 3
      (by simp [Value.Float, GoFloat64.IsInt, signedMag]) (by decide) (by decide),
   (int64_of_float sampleRuntime _ "x" (.float .float64 (.fin false 7 (-1)))
      (by simp [single, MapParams.lookup]) rfl).2
      (by
        rintro ⟨n, hn, -, -⟩
        simp [Value.Float, GoFloat64.IsInt, signedMag] at hn
        omega),
   (int64_of_float sampleRuntime _ "x" (.float .float64 (.fin false 9007199254740893 0))
      (by simp [single, MapParams.lookup]) rfl).2
      (by
        rintro ⟨n, hn, -, h2⟩
        simp [Value.Float, GoFloat64.IsInt, signedMag] at hn
        omega)⟩

/-- C4: for an unsigned-integer-kinded entry with value `u`, `Int64` returns
the int64 of the same numeric value and leaves the map as it is when
`u ≤ 9223372036854775807`; when `u` exceeds that maximum it returns 0 and
records a type-mismatch error. -/
theorem int64_of_uint (rt : Runtime) (m : MapParams) (k : GoString) (v : Value)
    (h : m.lookup k = some v) (hk : isUintKind v = true) :
    (v.Uint ≤ 9223372036854775807 → m.Int64 rt k = .ok ((v.Uint : Int), m)) ∧
    (9223372036854775807 < v.Uint →
      FailsWith (m.Int64 rt k) m 0 (typecastError rt "int64" k v)) := by
  obtain ⟨hi, -⟩ := (kinds_exclusive v).2.1 hk
  constructor
  · intro hle
    have : (v.Uint : Int) ≤ maxInt64 := by simp only [maxInt64]; omega
    simp only [MapParams.Int64, h, hi, hk, Bool.false_eq_true, if_false, if_true, this]
  · intro hgt
    have : ¬ (v.Uint : Int) ≤ maxInt64 := by simp only [maxInt64]; omega
    simp only [MapParams.Int64, h, hi, hk, Bool.false_eq_true, if_false, if_true, this]
    exact failsWith_of_lookup_some h _ _

/-- Witness of C4: the largest int64 is accepted, its successor is not. -/
theorem int64_of_uint_witness :
    (single "u" (.uint .uint64 9223372036854775807)).Int64 sampleRuntime "u"
      = .ok (9223372036854775807, single "u" (.uint .uint64 9223372036854775807)) ∧
    FailsWith ((single "u" (.uint .uint64 9223372036854775808)).Int64 sampleRuntime "u")
      (single "u" (.uint .uint64 9223372036854775808)) 0
      (typecastError sampleRuntime "int64" "u" (.uint .uint64 9223372036854775808)) :=
  ⟨(int64_of_uint sampleRuntime _ "u" (.uint .uint64 9223372036854775807)
      (by simp [single, MapParams.lookup]) rfl).1 (by decide),
   (int64_of_uint sampleRuntime _ "u" (.uint .uint64 9223372036854775808)
      (by simp [single, MapParams.lookup]) rfl).2 (by decide)⟩

/-- C5: for a signed-integer-kinded entry of any width (of type `int`, `int8`,
`int16`, `int32`, `int64` or any type of those kinds) with value `i`, `Int64`
returns `i` itself and the map it leaves is the map it was given, so no error
is recorded; there is no condition on the magnitude of `i`. -/
theorem int64_of_int (rt : Runtime) (m : MapParams) (k : GoString) (v : Value)
    (h : m.lookup k = some v) (hk : isIntKind v = true) :
    m.Int64 rt k = .ok (v.Int, m) := by
  simp only [MapParams.Int64, h, hk, if_true]

/-- Witness of C5: the smallest int64, held as an `int64`; a `time.Duration` of
1.5 seconds, an `int64` underneath; an error value whose type is an `int`
underneath. -/
theorem int64_of_int_witness :
    (single "i" (.int .int64 (-9223372036854775808))).Int64 sampleRuntime "i"
      = .ok (-9223372036854775808, single "i" (.int .int64 (-9223372036854775808))) ∧
    (single "d" (.other (.int .int64 1500000000) "time.Duration" "1.5s")).Int64
        sampleRuntime "d"
      = .ok (1500000000, single "d" (.other (.int .int64 1500000000) "time.Duration" "1.5s")) ∧
    (single "e" (.err ⟨"main.Code", "code 3", .int .int 3⟩)).Int64 sampleRuntime "e"
      = .ok (3, single "e" (.err ⟨"main.Code", "code 3", .int .int 3⟩)) :=
  ⟨int64_of_int sampleRuntime _ "i" (.int .int64 (-9223372036854775808))
    (by simp [single, MapParams.lookup]) rfl,
   int64_of_int sampleRuntime _ "d" (.other (.int .int64 1500000000) "time.Duration" "1.5s")
    (by simp [single, MapParams.lookup]) rfl,
   int64_of_int sampleRuntime _ "e" (.err ⟨"main.Code", "code 3", .int .int 3⟩)
    (by simp [single, MapParams.lookup]) rfl⟩

/-- C6 (as amended): on a map that is not nil, `Float64` returns the float64
conversion of a signed- or unsigned-integer-kinded entry of any magnitude and a
float-kinded entry as it is, leaving the map untouched; for a missing key and
for an entry of any other kind it returns 0.0 and records an error. -/
theorem float64_cases (rt : Runtime) (m : MapParams) (k : GoString) (hm : m ≠ .nil) :
    (∀ v, m.lookup k = some v → isIntKind v = true →
      m.Float64 rt k = .ok (GoFloat64.ofInt v.Int, m)) ∧
    (∀ v, m.lookup k = some v → isUintKind v = true →
      m.Float64 rt k = .ok (GoFloat64.ofNat v.Uint, m)) ∧
    (∀ v, m.lookup k = some v → isFloatKind v = true → m.Float64 rt k = .ok (v.Float, m)) ∧
    (m.lookup k = none →
      FailsWith (m.Float64 rt k) m (.fin false 0 0) (missingKeyError "float64" k)) ∧
    (∀ v, m.lookup k = some v → isIntKind v = false → isUintKind v = false →
      isFloatKind v = false →
      FailsWith (m.Float64 rt k) m (.fin false 0 0) (typecastError rt "float64" k v)) := by
  refine ⟨?_, ?_, ?_, ?_, ?_⟩
  · intro v h hi
    simp only [MapParams.Float64, h, hi, if_true]
  · intro v h hu
    obtain ⟨hi, -⟩ := (kinds_exclusive v).2.1 hu
    simp only [MapParams.Float64, h, hi, hu, Bool.false_eq_true, if_false, if_true]
  · intro v h hf
    obtain ⟨hi, hu⟩ := (kinds_exclusive v).2.2 hf
    simp only [MapParams.Float64, h, hi, hu, hf, Bool.false_eq_true, if_false, if_true]
  · intro h
    simp only [MapParams.Float64, h]
    exact failsWith_of_lookup_none hm _ _
  · intro v h hi hu hf
    simp only [MapParams.Float64, h, hi, hu, hf, Bool.false_eq_true, if_false]
    exact failsWith_of_lookup_some h _ _

/-- Witness of C6: the integer 7 gives 7.0, the unsigned `2^64 - 1` gives
`2^64`, and a missing key gives 0.0 and a missing-key error. -/
theorem float64_cases_witness :
    (single "n" (.int .int 7)).Float64 sampleRuntime "n"
      = .ok (.fin false 7 0, single "n" (.int .int 7)) ∧
    (single "n" (.uint .uint64 18446744073709551615)).Float64 sampleRuntime "n"
      = .ok (GoFloat64.ofNat 18446744073709551615,
          single "n" (.uint .uint64 18446744073709551615)) ∧
    GoFloat64.ofNat 18446744073709551615 = .fin false 4503599627370496 12 ∧
    FailsWith ((single "n" (.int .int 7)).Float64 sampleRuntime "absent")
      (single "n" (.int .int 7)) (.fin false 0 0) (missingKeyError "float64" "absent") :=
  ⟨(float64_cases sampleRuntime (single "n" (.int .int 7)) "n" (by simp [single])).1
      (.int .int 7) (by simp [single, MapParams.lookup]) rfl,
   (float64_cases sampleRuntime (single "n" (.uint .uint64 18446744073709551615)) "n"
      (by simp [single])).2.1 (.uint .uint64 18446744073709551615)
      (by simp [single, MapParams.lookup]) rfl,
   by decide,
   (float64_cases sampleRuntime (single "n" (.int .int 7)) "absent" (by simp [single])).2.2.2.1
      (by simp [single, MapParams.lookup])⟩

/-- C6 as stated fails on the nil map: the key is missing, yet `Float64` does not
return 0.0 with an error recorded; it panics. -/
theorem float64_nil_map_panics :
    MapParams.lookup .nil "k" = none ∧
    MapParams.Float64 sampleRuntime .nil "k" = .error .nilMapWrite ∧
    ¬ ∃ e, FailsWith (MapParams.Float64 sampleRuntime .nil "k") .nil (.fin false 0 0) e := by
  refine ⟨rfl, rfl, ?_⟩
  rintro ⟨e, m1, h, -⟩
  simp [MapParams.Float64, MapParams.lookup, MapParams.store, bind, Except.bind] at h

theorem store_ok_fst {α : Type} {m m1 : MapParams} {v : Value}
    {z a : α} (h : (do
        let m' ← m.store "$_error" v
        pure (z, m') : Except Panic (α × MapParams)) = .ok (a, m1)) : a = z := by
  cases m with
  | nil => simp [MapParams.store, bind, Except.bind] at h
  | mk f =>
    simp only [MapParams.store, bind, Except.bind, pure, Except.pure, Except.ok.injEq,
      Prod.mk.injEq] at h
    exact h.1.symm

/-- C7: when the entry at `k` is the string `s`, `String` returns `s`; when it is
the boolean `b`, `Bool` returns `b`; in both cases the map is left as it was,
so no error is recorded.  Conversely `String` (`Bool`) returns something other
than its zero value only when the entry at `k` is that string (boolean). -/
theorem string_bool_exact (rt : Runtime) (m : MapParams) (k : GoString) :
    (∀ s, m.lookup k = some (.str s) → m.String rt k = .ok (s, m)) ∧
    (∀ b, m.lookup k = some (.bool b) → m.Bool rt k = .ok (b, m)) ∧
    (∀ s m1, m.String rt k = .ok (s, m1) → s ≠ "" → m.lookup k = some (.str s)) ∧
    (∀ b m1, m.Bool rt k = .ok (b, m1) → b ≠ false → m.lookup k = some (.bool b)) := by
  refine ⟨?_, ?_, ?_, ?_⟩
  · intro s h
    simp only [MapParams.String, h]
  · intro b h
    simp only [MapParams.Bool, h]
  · intro s m1 h hs
    cases hl : m.lookup k with
    | none =>
      simp only [MapParams.String, hl] at h
      exact absurd (store_ok_fst h) hs
    | some v =>
      cases v with
      | str t =>
        simp only [MapParams.String, hl, Except.ok.injEq, Prod.mk.injEq] at h
        rw [h.1]
      | _ =>
        simp only [MapParams.String, hl] at h
        exact absurd (store_ok_fst h) hs
  · intro b m1 h hb
    cases hl : m.lookup k with
    | none =>
      simp only [MapParams.Bool, hl] at h
      exact absurd (store_ok_fst h) hb
    | some v =>
      cases v with
      | bool t =>
        simp only [MapParams.Bool, hl, Except.ok.injEq, Prod.mk.injEq] at h
        rw [h.1]
      | _ =>
        simp only [MapParams.Bool, hl] at h
        exact absurd (store_ok_fst h) hb

/-- Witness of C7: a string entry and a boolean entry are returned as they are. -/
theorem string_bool_exact_witness :
    (single "name" (.str "go")).String sampleRuntime "name"
      = .ok ("go", single "name" (.str "go")) ∧
    (single "on" (.bool true)).Bool sampleRuntime "on" = .ok (true, single "on" (.bool true)) :=
  ⟨(string_bool_exact sampleRuntime (single "name" (.str "go")) "name").1 "go"
      (by simp [single, MapParams.lookup]),
   (string_bool_exact sampleRuntime (single "on" (.bool true)) "on").2.1 true
      (by simp [single, MapParams.lookup])⟩

/-- The failure path shared by the accessors: store the error, return the zero value. -/
theorem call_fail_shape (z : Ret) (m : MapParams) (e : GoError) {α : Type} (z0 : α)
    (g : α × MapParams → Ret × MapParams) (hg : ∀ m1, g (z0, m1) = (z, m1)) :
    Except.map g (do
        let m1 ← m.store "$_error" (.err e)
        pure (z0, m1)) =
      (do
        let m1 ← m.store "$_error" (.err e)
        pure (z, m1)) := by
  cases m with
  | nil => rfl
  | mk f => simp [MapParams.store, bind, Except.bind, pure, Except.pure, Except.map, hg]

/-- Every call either finds an accepted value and returns with the map as it
was, or takes the failure path with the error of that call. -/
theorem call_cases (rt : Runtime) (a : Accessor) (m : MapParams) (k : GoString) :
    (∃ v r, m.lookup k = some v ∧ a.accepts rt v = true ∧ call rt a m k = .ok (r, m)) ∨
    ((∀ v, m.lookup k = some v → a.accepts rt v = false) ∧
      call rt a m k = (do
        let m1 ← m.store "$_error" (.err (a.errorFor rt k (m.lookup k)))
        pure (a.zero, m1))) := by
  cases hl : m.lookup k with
  | none =>
    right
    refine ⟨fun v hv => by simp at hv, ?_⟩
    cases a <;>
      simp only [call, MapParams.String, MapParams.Bool, MapParams.Int64, MapParams.Float64, hl,
        Accessor.errorFor, Accessor.jsonType, Accessor.zero] <;>
      exact call_fail_shape _ _ _ _ _ (fun _ => rfl)
  | some v =>
    by_cases hacc : a.accepts rt v = true
    · left
      refine ⟨v, ?_⟩
      cases a with
      | string =>
        cases v with
        | str s => exact ⟨.str s, rfl, hacc, by simp [call, MapParams.String, hl, Except.map]⟩
        | _ => simp [Accessor.accepts] at hacc
      | bool =>
        cases v with
        | bool b => exact ⟨.bool b, rfl, hacc, by simp [call, MapParams.Bool, hl, Except.map]⟩
        | _ => simp [Accessor.accepts] at hacc
      | int64 =>
        simp only [Accessor.accepts] at hacc
        by_cases hi : isIntKind v = true
        · exact ⟨.int v.Int, rfl, by simp [Accessor.accepts, hi],
            by simp [call, MapParams.Int64, hl, hi, Except.map]⟩
        · by_cases hu : isUintKind v = true
          · simp only [hi, hu, if_true, if_false, decide_eq_true_eq, Bool.false_eq_true] at hacc
            exact ⟨.int (v.Uint : Int), rfl, by simp [Accessor.accepts, hi, hu, hacc],
              by simp [call, MapParams.Int64, hl, hi, hu, hacc, Except.map]⟩
          · by_cases hf : isFloatKind v = true
            · simp only [hi, hu, hf, if_true, if_false, Bool.and_eq_true, decide_eq_true_eq,
                Bool.false_eq_true] at hacc
              obtain ⟨⟨h1, h2⟩, h3⟩ := hacc
              exact ⟨.int (v.Float.toInt64 rt.conv), rfl,
                by simp [Accessor.accepts, hi, hu, hf, h1, h2, h3],
                by simp [call, MapParams.Int64, hl, hi, hu, hf, h1, h2, h3, Except.map]⟩
            · simp [hi, hu, hf] at hacc
      | float64 =>
        simp only [Accessor.accepts, Bool.or_eq_true] at hacc
        by_cases hi : isIntKind v = true
        · exact ⟨.float (GoFloat64.ofInt v.Int), rfl, by simp [Accessor.accepts, hi],
            by simp [call, MapParams.Float64, hl, hi, Except.map]⟩
        · by_cases hu : isUintKind v = true
          · exact ⟨.float (GoFloat64.ofNat v.Uint), rfl, by simp [Accessor.accepts, hu],
              by simp [call, MapParams.Float64, hl, hi, hu, Except.map]⟩
          · have hf : isFloatKind v = true := by tauto
            exact ⟨.float v.Float, rfl, by simp [Accessor.accepts, hf],
              by simp [call, MapParams.Float64, hl, hi, hu, hf, Except.map]⟩
    · right
      have hacc' : a.accepts rt v = false := by simpa using hacc
      refine ⟨fun w hw => by cases hw; exact hacc', ?_⟩
      cases a with
      | string =>
        cases v with
        | str s => simp [Accessor.accepts] at hacc'
        | _ =>
          simp only [call, MapParams.String, hl, Accessor.errorFor, Accessor.jsonType,
            Accessor.zero]
          exact call_fail_shape _ _ _ _ _ (fun _ => rfl)
      | bool =>
        cases v with
        | bool b => simp [Accessor.accepts] at hacc'
        | _ =>
          simp only [call, MapParams.Bool, hl, Accessor.errorFor, Accessor.jsonType,
            Accessor.zero]
          exact call_fail_shape _ _ _ _ _ (fun _ => rfl)
      | int64 =>
        simp only [Accessor.accepts] at hacc'
        by_cases hi : isIntKind v = true
        · simp [hi] at hacc'
        · by_cases hu : isUintKind v = true
          · simp only [hi, hu, if_true, if_false, decide_eq_false_iff_not,
              Bool.false_eq_true] at hacc'
            simp only [call, MapParams.Int64, hl, hi, hu, hacc', if_true, if_false,
              Accessor.errorFor, Accessor.jsonType, Accessor.zero, Bool.false_eq_true]
            exact call_fail_shape _ _ _ _ _ (fun _ => rfl)
          · by_cases hf : isFloatKind v = true
            · simp only [hi, hu, hf, if_true, if_false, Bool.false_eq_true] at hacc'
              have hc : ¬ (v.Float.eq v.Float.trunc = true ∧
                  v.Float.toInt64 rt.conv ≤ 9007199254740892 ∧
                  v.Float.toInt64 rt.conv ≥ -9007199254740892) := by
                rintro ⟨h1, h2, h3⟩
                simp [h1, h2, h3] at hacc'
              simp only [call, MapParams.Int64, hl, hi, hu, hf, hc, if_true, if_false,
                Accessor.errorFor, Accessor.jsonType, Accessor.zero, Bool.false_eq_true]
              exact call_fail_shape _ _ _ _ _ (fun _ => rfl)
            · simp only [call, MapParams.Int64, hl, hi, hu, hf, if_false,
                Accessor.errorFor, Accessor.jsonType, Accessor.zero, Bool.false_eq_true]
              exact call_fail_shape _ _ _ _ _ (fun _ => rfl)
      | float64 =>
        simp only [Accessor.accepts, Bool.or_eq_false_iff] at hacc'
        obtain ⟨⟨hi, hu⟩, hf⟩ := hacc'
        simp only [call, MapParams.Float64, hl, hi, hu, hf, if_false,
          Accessor.errorFor, Accessor.jsonType, Accessor.zero, Bool.false_eq_true]
        exact call_fail_shape _ _ _ _ _ (fun _ => rfl)

/-- What a returning failure path leaves: the old map with the error stored. -/
theorem fail_path_ok {m m1 : MapParams} {e : GoError} {z r : Ret}
    (h : (do
        let m' ← m.store "$_error" (.err e)
        pure (z, m') : Except Panic (Ret × MapParams)) = .ok (r, m1)) :
    r = z ∧ ∃ f, m = .mk f ∧ m1 = .mk (fun k => if k = "$_error" then some (.err e) else f k) := by
  cases m with
  | nil => simp [MapParams.store, bind, Except.bind] at h
  | mk f =>
    simp only [MapParams.store, bind, Except.bind, pure, Except.pure, Except.ok.injEq,
      Prod.mk.injEq] at h
    exact ⟨h.1.symm, f, rfl, h.2.symm⟩

/-- On a map that is not nil a failing call returns: it stores its error and
gives back the zero value. -/
theorem keyFails_call (rt : Runtime) (a : Accessor) (m : MapParams) (k : GoString)
    (hm : m ≠ .nil) (h : keyFails rt a m k = true) :
    ∃ f, m = .mk f ∧
      call rt a m k = .ok (a.zero, .mk fun k1 =>
        if k1 = "$_error" then some (.err (a.errorFor rt k (m.lookup k))) else f k1) := by
  rcases call_cases rt a m k with ⟨v, r, hv, hacc, -⟩ | ⟨-, hcall⟩
  · simp [keyFails, hv, hacc] at h
  · cases m with
    | nil => exact absurd rfl hm
    | mk f => exact ⟨f, rfl, hcall⟩

/-- C8 (as amended): only the most recent error is retained.  On a map that is
not nil, an accessor call that fails (its key is missing or holds a value it
does not accept) returns its zero value and `Error()` then gives its error; a
second failing call made on the map the first left returns as well, and
`Error()` afterwards gives exactly the error of the second call: the one for
the second accessor, the second key and what the second read found.  Unless
its key is "$_error", the second read finds what the map held before the first
call, so the second call fails on the map the first left exactly when it fails
on the map as it was. -/
theorem last_error_wins (rt : Runtime) (a1 a2 : Accessor) (k1 k2 : GoString)
    (m : MapParams) (hm : m ≠ .nil) (h1 : keyFails rt a1 m k1 = true) :
    ∃ m1, call rt a1 m k1 = .ok (a1.zero, m1) ∧
      m1.Error = .ok (some (a1.errorFor rt k1 (m.lookup k1))) ∧
      (k2 ≠ "$_error" →
        m1.lookup k2 = m.lookup k2 ∧ keyFails rt a2 m1 k2 = keyFails rt a2 m k2) ∧
      (keyFails rt a2 m1 k2 = true →
        ∃ m2, call rt a2 m1 k2 = .ok (a2.zero, m2) ∧
          m2.Error = .ok (some (a2.errorFor rt k2 (m1.lookup k2))) ∧
          m2.lookup "$_error" = some (.err (a2.errorFor rt k2 (m1.lookup k2)))) := by
  obtain ⟨f, rfl, hc1⟩ := keyFails_call rt a1 m k1 hm h1
  refine ⟨_, hc1, error_after_store f _, ?_, ?_⟩
  · intro hk2
    have hl : (MapParams.mk fun k =>
        if k = "$_error" then
          some (.err (a1.errorFor rt k1 ((MapParams.mk f).lookup k1)))
        else f k).lookup k2 = (MapParams.mk f).lookup k2 := by
      simp only [MapParams.lookup, hk2, if_false]
    exact ⟨hl, by simp only [keyFails, hl]⟩
  · intro h2
    obtain ⟨g, hg, hc2⟩ := keyFails_call rt a2 _ k2 (by simp) h2
    refine ⟨_, hc2, error_after_store g _, ?_⟩
    simp only [MapParams.lookup, if_true]

/-- Witness of C8: `String("missing1")` then `Bool("missing2")` on the empty map:
both return, and `Error()` after the second gives the missing-key error for
"missing2" and type bool. -/
theorem last_error_wins_witness :
    (∃ m1, call sampleRuntime .string emptyMap "missing1" = .ok (Accessor.zero .string, m1) ∧
      m1.Error = .ok (some (Accessor.errorFor sampleRuntime .string "missing1"
        (emptyMap.lookup "missing1"))) ∧
      ("missing2" ≠ "$_error" →
        m1.lookup "missing2" = emptyMap.lookup "missing2" ∧
          keyFails sampleRuntime .bool m1 "missing2" =
            keyFails sampleRuntime .bool emptyMap "missing2") ∧
      (keyFails sampleRuntime .bool m1 "missing2" = true →
        ∃ m2, call sampleRuntime .bool m1 "missing2" = .ok (Accessor.zero .bool, m2) ∧
          m2.Error = .ok (some (Accessor.errorFor sampleRuntime .bool "missing2"
            (m1.lookup "missing2"))) ∧
          m2.lookup "$_error" = some (.err (Accessor.errorFor sampleRuntime .bool "missing2"
            (m1.lookup "missing2"))))) ∧
    ((runCalls sampleRuntime [(.string, "missing1"), (.bool, "missing2")] emptyMap).bind
        fun r => r.2.Error) =
      .ok (some ⟨"*errors.errorString",
        "looking for a bool in job.Arg[missing2] but key wasn't found", .other .pointer⟩) :=
  ⟨last_error_wins sampleRuntime .string .bool "missing1" "missing2" emptyMap
    (by simp [emptyMap]) rfl,
   by rfl⟩

/-- C8 as stated fails on the nil map: both keys are absent, so both calls are
failing ones, yet the first call panics on the write of its error and
`Error()` on the nil map gives nil, not the error of the second call. -/
theorem last_error_nil_map :
    keyFails sampleRuntime .string .nil "missing1" = true ∧
    keyFails sampleRuntime .bool .nil "missing2" = true ∧
    call sampleRuntime .string .nil "missing1" = .error .nilMapWrite ∧
    call sampleRuntime .bool .nil "missing2" = .error .nilMapWrite ∧
    runCalls sampleRuntime [(.string, "missing1"), (.bool, "missing2")] .nil =
      .error .nilMapWrite ∧
    MapParams.Error .nil = .ok none :=
  ⟨rfl, rfl, rfl, rfl, rfl, rfl⟩

/-- C9: a successful access does not clear a prior error.  On a map that holds a
recorded error, a call that finds an accepted value under its key returns
with the map exactly as it was, so `Error()` gives the same error after the
call as before it. -/
theorem success_keeps_error (rt : Runtime) (a : Accessor) (m : MapParams) (k : GoString)
    (e : GoError) (v : Value) (he : m.lookup "$_error" = some (.err e))
    (hv : m.lookup k = some v) (hacc : a.accepts rt v = true) :
    m.Error = .ok (some e) ∧
    ∃ r, call rt a m k = .ok (r, m) ∧
      ∀ m1, call rt a m k = .ok (r, m1) → m1.Error = .ok (some e) := by
  have hE : m.Error = .ok (some e) := by simp [MapParams.Error, he]
  refine ⟨hE, ?_⟩
  rcases call_cases rt a m k with ⟨w, r, hw, -, hcall⟩ | ⟨hrej, -⟩
  · refine ⟨r, hcall, ?_⟩
    intro m1 h1
    rw [hcall] at h1
    simp only [Except.ok.injEq, Prod.mk.injEq, true_and] at h1
    rw [← h1]
    exact hE
  · rw [hrej v hv] at hacc
    exact absurd hacc (by simp)

/-- Witness of C9: `Bool("missing")` fails on the map with the one entry "ok";
`String("ok")` on the map it leaves returns the string and that same map, whose
`Error()` is still the missing-key error for "missing". -/
theorem success_keeps_error_witness :
    (single "ok" (.str "fine")).Bool sampleRuntime "missing" =
      .ok (false, .mk fun k =>
        if k = "$_error" then some (.err (missingKeyError "bool" "missing"))
        else (fun k => if k = "ok" then some (.str "fine") else none) k) ∧
    (MapParams.mk fun k =>
        if k = "$_error" then some (.err (missingKeyError "bool" "missing"))
        else (fun k => if k = "ok" then some (.str "fine") else none) k).Error
      = .ok (some (missingKeyError "bool" "missing")) ∧
    ∃ r, call sampleRuntime .string
        (.mk fun k =>
          if k = "$_error" then some (.err (missingKeyError "bool" "missing"))
          else (fun k => if k = "ok" then some (.str "fine") else none) k) "ok" =
        .ok (r, .mk fun k =>
          if k = "$_error" then some (.err (missingKeyError "bool" "missing"))
          else (fun k => if k = "ok" then some (.str "fine") else none) k) ∧
      ∀ m1, call sampleRuntime .string
        (.mk fun k =>
          if k = "$_error" then some (.err (missingKeyError "bool" "missing"))
          else (fun k => if k = "ok" then some (.str "fine") else none) k) "ok" =
        .ok (r, m1) → m1.Error = .ok (some (missingKeyError "bool" "missing")) :=
  ⟨rfl,
   success_keeps_error sampleRuntime .string _ "ok" (missingKeyError "bool" "missing")
    (.str "fine") (by simp [MapParams.lookup])
    (by
      have : "ok" ≠ "$_error" := by decide
      simp [MapParams.lookup, this])
    rfl⟩

/-- C10: the only side effect of an accessor is the write of the error entry on
failure.  A call on a map that is not nil returns; after any call that
returns, every entry under a key other than "$_error" is what it was before,
and the "$_error" entry differs from before only if the call failed (it
returned its zero value, its key being missing or holding a value it does not
accept). -/
theorem accessor_frame (rt : Runtime) (a : Accessor) (m : MapParams) (k : GoString) :
    (m ≠ .nil → ∃ r m1, call rt a m k = .ok (r, m1)) ∧
    ∀ r m1, call rt a m k = .ok (r, m1) →
      (∀ k1, k1 ≠ "$_error" → m1.lookup k1 = m.lookup k1) ∧
      (m1.lookup "$_error" ≠ m.lookup "$_error" →
        r = a.zero ∧ ∀ v, m.lookup k = some v → a.accepts rt v = false) := by
  constructor
  · intro hm
    rcases call_cases rt a m k with ⟨v, r, -, -, hcall⟩ | ⟨-, hcall⟩
    · exact ⟨r, m, hcall⟩
    · cases m with
      | nil => exact absurd rfl hm
      | mk f => exact ⟨a.zero, _, hcall⟩
  · intro r m1 h
    rcases call_cases rt a m k with ⟨v, r0, -, -, hcall⟩ | ⟨hrej, hcall⟩
    · rw [hcall] at h
      simp only [Except.ok.injEq, Prod.mk.injEq] at h
      obtain ⟨-, rfl⟩ := h
      exact ⟨fun _ _ => rfl, fun hne => absurd rfl hne⟩
    · rw [hcall] at h
      obtain ⟨hr, f, rfl, rfl⟩ := fail_path_ok h
      refine ⟨?_, fun _ => ⟨hr, hrej⟩⟩
      intro k1 hk1
      simp [MapParams.lookup, hk1]

/-- Witness of C10: `Int64("n")` on the map with the one entry "n" = "seven" (a
string) fails; the entry "n" is untouched and only "$_error" is new. -/
theorem accessor_frame_witness :
    call sampleRuntime .int64 (single "n" (.str "seven")) "n" =
      .ok (.int 0, .mk fun k =>
        if k = "$_error" then
          some (.err (typecastError sampleRuntime "int64" "n" (.str "seven")))
        else (fun k => if k = "n" then some (.str "seven") else none) k) ∧
    ((∀ k1, k1 ≠ "$_error" →
        (MapParams.mk fun k =>
          if k = "$_error" then
            some (.err (typecastError sampleRuntime "int64" "n" (.str "seven")))
          else (fun k => if k = "n" then some (.str "seven") else none) k).lookup k1 =
          (single "n" (.str "seven")).lookup k1) ∧
      ((MapParams.mk fun k =>
          if k = "$_error" then
            some (.err (typecastError sampleRuntime "int64" "n" (.str "seven")))
          else (fun k => if k = "n" then some (.str "seven") else none) k).lookup "$_error" ≠
          (single "n" (.str "seven")).lookup "$_error" →
        Ret.int 0 = Accessor.zero .int64 ∧
          ∀ v, (single "n" (.str "seven")).lookup "n" = some v →
            Accessor.accepts sampleRuntime .int64 v = false)) :=
  ⟨rfl, (accessor_frame sampleRuntime .int64 (single "n" (.str "seven")) "n").2 _ _ rfl⟩

/-- The step form of `Error` is the method `Error` paired with the receiver. -/
theorem errorStep_eq (m : MapParams) :
    m.ErrorStep = m.Error.map fun r => (r, m) := by
  unfold MapParams.ErrorStep MapParams.Error
  cases m.lookup "$_error" with
  | none => rfl
  | some v => cases v <;> rfl

/-- A failing call that returns leaves its own error under the sentinel key. -/
theorem callFails_lookup (rt : Runtime) (a : Accessor) (k : GoString) (m m1 : MapParams)
    (h : CallFails rt a m k m1) :
    m1.lookup "$_error" = some (.err (a.errorFor rt k (m.lookup k))) := by
  obtain ⟨hc, hrej⟩ := h
  rcases call_cases rt a m k with ⟨v, r, hv, hacc, -⟩ | ⟨-, hcall⟩
  · rw [hrej v hv] at hacc
    exact absurd hacc (by simp)
  · rw [hcall] at hc
    obtain ⟨-, f, -, rfl⟩ := fail_path_ok hc
    simp [MapParams.lookup]

/-- C11: `Error()` returns the last recorded error without clearing it, and none
when no error was recorded.  On a map with no "$_error" entry it returns nil;
on a map whose "$_error" entry is an error it returns that error, which after
a failing accessor call is the error of that call; whenever it returns, the
map it leaves is the map it was given, so a second `Error()` returns the same
result. -/
theorem error_reads_without_clearing :
    (∀ m : MapParams, m.lookup "$_error" = none → m.ErrorStep = .ok (none, m)) ∧
    (∀ (m : MapParams) (e : GoError), m.lookup "$_error" = some (.err e) →
      m.ErrorStep = .ok (some e, m)) ∧
    (∀ (rt : Runtime) (a : Accessor) (k : GoString) (m m1 : MapParams),
      CallFails rt a m k m1 →
      m1.ErrorStep = .ok (some (a.errorFor rt k (m.lookup k)), m1)) ∧
    (∀ (m m1 : MapParams) (r : Option GoError), m.ErrorStep = .ok (r, m1) →
      m1 = m ∧ m1.ErrorStep = .ok (r, m1)) := by
  refine ⟨?_, ?_, ?_, ?_⟩
  · intro m h
    simp only [MapParams.ErrorStep, h]
  · intro m e h
    simp only [MapParams.ErrorStep, h]
  · intro rt a k m m1 h
    simp only [MapParams.ErrorStep, callFails_lookup rt a k m m1 h]
  · intro m m1 r h
    have hm : m1 = m := by
      unfold MapParams.ErrorStep at h
      cases hl : m.lookup "$_error" with
      | none =>
        simp only [hl, Except.ok.injEq, Prod.mk.injEq] at h
        exact h.2.symm
      | some v =>
        cases v <;> simp only [hl, Except.ok.injEq, Prod.mk.injEq, reduceCtorEq] at h
        exact h.2.symm
    subst hm
    exact ⟨rfl, h⟩

/-- Witness of C11: on the empty map `Error()` returns nil; after the failing
`Bool("missing")` two `Error()` calls in a row return the missing-key error and
the same map. -/
theorem error_reads_without_clearing_witness :
    emptyMap.ErrorStep = .ok (none, emptyMap) ∧
    (MapParams.mk fun k =>
        if k = "$_error" then some (.err (missingKeyError "bool" "missing"))
        else (fun _ => none) k).ErrorStep =
      .ok (some (missingKeyError "bool" "missing"), .mk fun k =>
        if k = "$_error" then some (.err (missingKeyError "bool" "missing"))
        else (fun _ => none) k) ∧
    ((MapParams.mk fun k =>
        if k = "$_error" then some (.err (missingKeyError "bool" "missing"))
        else (fun _ => none) k) =
      (MapParams.mk fun k =>
        if k = "$_error" then some (.err (missingKeyError "bool" "missing"))
        else (fun _ => none) k) ∧
      (MapParams.mk fun k =>
        if k = "$_error" then some (.err (missingKeyError "bool" "missing"))
        else (fun _ => none) k).ErrorStep =
      .ok (some (missingKeyError "bool" "missing"), .mk fun k =>
        if k = "$_error" then some (.err (missingKeyError "bool" "missing"))
        else (fun _ => none) k)) :=
  ⟨error_reads_without_clearing.1 emptyMap rfl,
   error_reads_without_clearing.2.2.1 sampleRuntime .bool "missing" emptyMap _
    ⟨by rfl, by simp [emptyMap, MapParams.lookup]⟩,
   error_reads_without_clearing.2.2.2 _ _ _ (by rfl)⟩

/-- C12 (as amended): on a map that is not nil, whatever it holds under any key,
each of `String`, `Bool`, `Int64` and `Float64` returns for every key; `Error()`
returns on every map, the nil one included, whose "$_error" entry is absent or
an error, and that is the state every returning accessor call leaves when it
was given such a map. -/
theorem accessors_return_on_non_nil :
    (∀ (rt : Runtime) (a : Accessor) (m : MapParams) (k : GoString), m ≠ .nil →
      ∃ r m1, call rt a m k = .ok (r, m1) ∧ m1 ≠ .nil) ∧
    (∀ m : MapParams,
      (m.lookup "$_error" = none ∨ ∃ e, m.lookup "$_error" = some (.err e)) →
      ∃ r, m.Error = .ok r) ∧
    (∀ (rt : Runtime) (a : Accessor) (m m1 : MapParams) (k : GoString) (r : Ret),
      (m.lookup "$_error" = none ∨ ∃ e, m.lookup "$_error" = some (.err e)) →
      call rt a m k = .ok (r, m1) →
      (m1.lookup "$_error" = none ∨ ∃ e, m1.lookup "$_error" = some (.err e))) := by
  refine ⟨?_, ?_, ?_⟩
  · intro rt a m k hm
    rcases call_cases rt a m k with ⟨v, r, -, -, hcall⟩ | ⟨-, hcall⟩
    · exact ⟨r, m, hcall, hm⟩
    · cases m with
      | nil => exact absurd rfl hm
      | mk f => exact ⟨a.zero, _, hcall, by simp⟩
  · rintro m (h | ⟨e, h⟩)
    · exact ⟨none, by simp only [MapParams.Error, h]⟩
    · exact ⟨some e, by simp only [MapParams.Error, h]⟩
  · intro rt a m m1 k r hinv hc
    rcases call_cases rt a m k with ⟨v, r0, -, -, hcall⟩ | ⟨-, hcall⟩
    · rw [hcall] at hc
      simp only [Except.ok.injEq, Prod.mk.injEq] at hc
      rw [← hc.2]
      exact hinv
    · rw [hcall] at hc
      obtain ⟨-, f, -, rfl⟩ := fail_path_ok hc
      refine Or.inr ⟨a.errorFor rt k (m.lookup k), ?_⟩
      simp only [MapParams.lookup, if_true]

/-- Witness of C12: `Int64("n")` returns on the map that holds a slice under "n". -/
theorem accessors_return_on_non_nil_witness :
    ∃ r m1, call sampleRuntime .int64 (single "n" (.other (.other .slice) "[]int" "[1 2]")) "n"
      = .ok (r, m1) ∧ m1 ≠ .nil :=
  accessors_return_on_non_nil.1 sampleRuntime .int64
    (single "n" (.other (.other .slice) "[]int" "[1 2]")) "n" (by simp [single])

/-- C12 as stated fails twice: on the nil map every accessor panics on the write
of the error, and `Error()` panics on a map whose "$_error" entry is not an
error (here a string supplied by the caller). -/
theorem panics_on_nil_and_foreign_sentinel :
    call sampleRuntime .string .nil "k" = .error .nilMapWrite ∧
    call sampleRuntime .bool .nil "k" = .error .nilMapWrite ∧
    call sampleRuntime .int64 .nil "k" = .error .nilMapWrite ∧
    call sampleRuntime .float64 .nil "k" = .error .nilMapWrite ∧
    (single "$_error" (.str "x")).Error = .error .typeAssertion :=
  ⟨rfl, rfl, rfl, rfl, rfl⟩

/-- Running two sequences back to back is running their concatenation. -/
theorem runCalls_append (rt : Runtime) (xs ys : List (Accessor × GoString))
    (m m1 m2 : MapParams) (rs1 rs2 : List Ret)
    (h1 : runCalls rt xs m = .ok (rs1, m1)) (h2 : runCalls rt ys m1 = .ok (rs2, m2)) :
    runCalls rt (xs ++ ys) m = .ok (rs1 ++ rs2, m2) := by
  induction xs generalizing m rs1 with
  | nil =>
    simp only [runCalls, Except.ok.injEq, Prod.mk.injEq] at h1
    obtain ⟨rfl, rfl⟩ := h1
    simpa using h2
  | cons c cs ih =>
    simp only [runCalls, List.cons_append] at h1 ⊢
    cases hc : call rt c.1 m c.2 with
    | error p => simp [hc] at h1
    | ok x =>
      obtain ⟨r, n⟩ := x
      simp only [hc] at h1 ⊢
      cases hr : runCalls rt cs n with
      | error p => simp [hr] at h1
      | ok y =>
        obtain ⟨rs, n2⟩ := y
        simp only [hr, Except.ok.injEq, Prod.mk.injEq] at h1
        obtain ⟨rfl, rfl⟩ := h1
        rw [show cs.append ys = cs ++ ys from rfl, ih n rs hr]
        rfl

/-- A sequence of calls that each find an accepted value returns and leaves the
map as it was. -/
theorem runCalls_all_accepted (rt : Runtime) (cs : List (Accessor × GoString)) (m : MapParams)
    (h : ∀ c ∈ cs, ∃ v, m.lookup c.2 = some v ∧ c.1.accepts rt v = true) :
    ∃ rs, runCalls rt cs m = .ok (rs, m) := by
  induction cs with
  | nil => exact ⟨[], rfl⟩
  | cons c cs ih =>
    obtain ⟨v, hv, hacc⟩ := h c (List.mem_cons_self c cs)
    obtain ⟨rs, hrs⟩ := ih (fun d hd => h d (List.mem_cons_of_mem c hd))
    rcases call_cases rt c.1 m c.2 with ⟨w, r, -, -, hcall⟩ | ⟨hrej, -⟩
    · exact ⟨r :: rs, by simp only [runCalls, hcall, hrs]⟩
    · rw [hrej v hv] at hacc
      exact absurd hacc (by simp)

/-- C13 (as amended): the accessors keep the last error of a chain of accesses.
When a sequence of calls returns up to a call that fails, and every call after
that one finds an accepted value, the whole sequence returns and `Error()`
afterwards gives the error of that last failing call, whatever failed before
it. -/
theorem last_failing_call_reported (rt : Runtime) (pre post : List (Accessor × GoString))
    (a : Accessor) (k : GoString) (m m1 m2 : MapParams) (rs1 : List Ret)
    (hpre : runCalls rt pre m = .ok (rs1, m1)) (hfail : CallFails rt a m1 k m2)
    (hpost : ∀ c ∈ post, ∃ v, m2.lookup c.2 = some v ∧ c.1.accepts rt v = true) :
    ∃ rs, runCalls rt (pre ++ (a, k) :: post) m = .ok (rs, m2) ∧
      m2.Error = .ok (some (a.errorFor rt k (m1.lookup k))) := by
  obtain ⟨rs2, hrs2⟩ := runCalls_all_accepted rt post m2 hpost
  have hmid : runCalls rt ((a, k) :: post) m1 = .ok (a.zero :: rs2, m2) := by
    simp only [runCalls, hfail.1, hrs2]
  refine ⟨rs1 ++ a.zero :: rs2, runCalls_append rt pre _ m m1 m2 rs1 _ hpre hmid, ?_⟩
  simp only [MapParams.Error, callFails_lookup rt a k m1 m2 hfail]

/-- Witness of C13: `String("missing1")`, `Bool("missing2")`, `String("ok")` on the
map with the one entry "ok": two calls fail, and `Error()` gives the error of
the second of them. -/
theorem last_failing_call_reported_witness :
    ∃ rs, runCalls sampleRuntime ([(.string, "missing1")] ++ (.bool, "missing2") ::
        [(.string, "ok")]) (single "ok" (.str "fine")) =
        .ok (rs, .mk fun k =>
          if k = "$_error" then some (.err (missingKeyError "bool" "missing2"))
          else (fun k => if k = "$_error" then
              some (.err (missingKeyError "string" "missing1"))
            else (fun k => if k = "ok" then some (.str "fine") else none) k) k) ∧
      (MapParams.mk fun k =>
          if k = "$_error" then some (.err (missingKeyError "bool" "missing2"))
          else (fun k => if k = "$_error" then
              some (.err (missingKeyError "string" "missing1"))
            else (fun k => if k = "ok" then some (.str "fine") else none) k) k).Error =
        .ok (some (Accessor.errorFor sampleRuntime .bool "missing2"
          ((MapParams.mk fun k => if k = "$_error" then
              some (.err (missingKeyError "string" "missing1"))
            else (fun k => if k = "ok" then some (.str "fine") else none) k).lookup
            "missing2"))) :=
  last_failing_call_reported sampleRuntime [(.string, "missing1")] [(.string, "ok")]
    .bool "missing2" (single "ok" (.str "fine"))
    (.mk fun k => if k = "$_error" then some (.err (missingKeyError "string" "missing1"))
      else (fun k => if k = "ok" then some (.str "fine") else none) k)
    _ [.str ""] (by rfl)
    ⟨by rfl, by
      intro v hv
      have h1 : "missing2" ≠ "$_error" := by decide
      have h2 : "missing2" ≠ "ok" := by decide
      simp [MapParams.lookup, h1, h2] at hv⟩
    (by
      intro c hc
      simp only [List.mem_singleton] at hc
      subst hc
      have h1 : "ok" ≠ "$_error" := by decide
      exact ⟨.str "fine", by simp [MapParams.lookup, h1], rfl⟩)

/-- C13 as stated fails: after `String("missing1")` then `Bool("missing2")` on
the empty map, both failing, `Error()` gives the error of the second call, which
is not the error of the first failing call. -/
theorem first_error_not_kept :
    (runCalls sampleRuntime [(.string, "missing1"), (.bool, "missing2")] emptyMap).bind
        (fun r => r.2.Error) = .ok (some (missingKeyError "bool" "missing2")) ∧
    (call sampleRuntime .string emptyMap "missing1").bind (fun r => r.2.Error) =
      .ok (some (missingKeyError "string" "missing1")) ∧
    missingKeyError "bool" "missing2" ≠ missingKeyError "string" "missing1" :=
  ⟨by rfl, by rfl, by decide⟩

/-- An integer of magnitude below `2^53` is exactly a float64. -/
theorem exactFloat_of_small (n : Int) (h : n.natAbs < 2 ^ 53) : ExactFloat n := by
  unfold ExactFloat GoFloat64.ofInt
  have hr : roundNat n.natAbs = (n.natAbs, 0) := by simp only [roundNat, h, if_true]
  rw [hr]
  simp only [GoFloat64.IsInt, signedMag, Nat.cast_zero, Int.toNat_zero, pow_zero, mul_one,
    neg_zero, decide_eq_true_eq]
  split <;> omega

/-- Every integer of `[-2^53, 2^53]` is exactly a float64. -/
theorem exactFloat_upto (n : Int) (hlo : -(2 ^ 53) ≤ n) (hhi : n ≤ 2 ^ 53) : ExactFloat n := by
  rcases lt_or_eq_of_le hhi with h1 | h1
  · rcases lt_or_eq_of_le hlo with h2 | h2
    · exact exactFloat_of_small n (by omega)
    · rw [← h2]; decide
  · rw [h1]; decide

/-- A float has at most one integer value. -/
theorem isInt_unique (f : GoFloat64) (a b : Int) (ha : f.IsInt a) (hb : f.IsInt b) : a = b := by
  cases f with
  | nan => exact absurd ha (by simp [GoFloat64.IsInt])
  | inf s => exact absurd ha (by simp [GoFloat64.IsInt])
  | fin s m e =>
    simp only [GoFloat64.IsInt] at ha hb
    have hp : (2 : Int) ^ (-e).toNat ≠ 0 := by positivity
    exact mul_right_cancel₀ hp (ha.symm.trans hb)

/-- The float branch of `Int64`, in the terms of the source: the value converted
when the three tests pass, the failure path otherwise. -/
theorem int64_float_branch (rt : Runtime) (m : MapParams) (k : GoString) (v : Value)
    (h : m.lookup k = some v) (hk : isFloatKind v = true) :
    ((v.Float.eq v.Float.trunc = true ∧ v.Float.toInt64 rt.conv ≤ 9007199254740892 ∧
        v.Float.toInt64 rt.conv ≥ -9007199254740892) →
      m.Int64 rt k = .ok (v.Float.toInt64 rt.conv, m)) ∧
    (¬ (v.Float.eq v.Float.trunc = true ∧ v.Float.toInt64 rt.conv ≤ 9007199254740892 ∧
        v.Float.toInt64 rt.conv ≥ -9007199254740892) →
      FailsWith (m.Int64 rt k) m 0 (typecastError rt "int64" k v)) := by
  obtain ⟨hi, hu⟩ := (kinds_exclusive v).2.2 hk
  constructor
  · intro hc
    simp only [MapParams.Int64, h, hi, hu, hk, Bool.false_eq_true, if_false, if_true,
      hc, and_self]
  · intro hc
    simp only [MapParams.Int64, h, hi, hu, hk, Bool.false_eq_true, if_false, if_true, hc]
    exact failsWith_of_lookup_some h _ _

/-- C14 (as amended): the bound 9007199254740892 that `Int64` applies to
float-kinded values is `2^53 - 100`, one hundred below `2^53`, the largest `N`
such that every integer of `[-N, N]` is exactly a float64 (every integer up to
`2^53` is, `2^53 + 1` is not).  So `Int64` accepts the float of an integer `n`
with `|n| ≤ 2^53 - 100` and rejects the exactly representable ones with
`2^53 - 100 < |n| ≤ 2^53`. -/
theorem float_bound_is_below_exact_limit :
    (9007199254740892 : Int) = 2 ^ 53 - 100 ∧
    (∀ n : Int, -(2 ^ 53) ≤ n → n ≤ 2 ^ 53 → ExactFloat n) ∧
    ¬ ExactFloat (2 ^ 53 + 1) ∧
    (∀ (rt : Runtime) (m : MapParams) (k : GoString) (fk : FloatKind) (n : Int),
      m.lookup k = some (.float fk (GoFloat64.ofInt n)) → -(2 ^ 53) ≤ n → n ≤ 2 ^ 53 →
      (n.natAbs ≤ 2 ^ 53 - 100 → m.Int64 rt k = .ok (n, m)) ∧
      (2 ^ 53 - 100 < n.natAbs →
        FailsWith (m.Int64 rt k) m 0
          (typecastError rt "int64" k (.float fk (GoFloat64.ofInt n))))) := by
  refine ⟨by norm_num, exactFloat_upto, by decide, ?_⟩
  intro rt m k fk n h hlo hhi
  have hex : (GoFloat64.ofInt n).IsInt n := exactFloat_upto n hlo hhi
  obtain ⟨hacc, hrej⟩ := int64_float_branch rt m k _ h (kinds_float fk _).2.2
  simp only [Value.Float] at hacc hrej
  constructor
  · intro hb
    obtain ⟨h1, h2⟩ := float_accept rt.conv _ n hex (by omega) (by omega)
    have := hacc ⟨h1, by rw [h2]; omega, by rw [h2]; omega⟩
    rw [h2] at this
    exact this
  · intro hb
    apply hrej
    rintro ⟨h1, h2, h3⟩
    have := isInt_unique _ _ _ (float_reject rt.conv _ h1 h2 h3) hex
    rw [this] at h2 h3
    omega

/-- Witness of C14: the float of `2^53 - 100` is accepted and the float of
`2^53 - 99`, exactly representable too, is rejected. -/
theorem float_bound_is_below_exact_limit_witness :
    (single "x" (.float .float64 (GoFloat64.ofInt 9007199254740892))).Int64 sampleRuntime "x"
      = .ok (9007199254740892,
          single "x" (.float .float64 (GoFloat64.ofInt 9007199254740892))) ∧
    FailsWith
      ((single "x" (.float .float64 (GoFloat64.ofInt 9007199254740893))).Int64
        sampleRuntime "x")
      (single "x" (.float .float64 (GoFloat64.ofInt 9007199254740893))) 0
      (typecastError sampleRuntime "int64" "x"
        (.float .float64 (GoFloat64.ofInt 9007199254740893))) :=
  ⟨(float_bound_is_below_exact_limit.2.2.2 sampleRuntime _ "x" .float64 9007199254740892
      (by simp [single, MapParams.lookup]) (by norm_num) (by norm_num)).1 (by decide),
   (float_bound_is_below_exact_limit.2.2.2 sampleRuntime _ "x" .float64 9007199254740893
      (by simp [single, MapParams.lookup]) (by norm_num) (by norm_num)).2 (by decide)⟩

/-- C14 as stated fails: the bound plus one is 9007199254740893, not
`2^53 = 9007199254740992`, and it is not the largest `N` with every integer of
`[-N, N]` exactly a float64, because the next integer in both directions is
exactly a float64 as well. -/
theorem float_bound_plus_one_is_not_limit :
    (9007199254740892 : Int) + 1 ≠ 2 ^ 53 ∧
    ExactFloat (9007199254740892 + 1 + 1) ∧
    ExactFloat (-(9007199254740892 + 1 + 1)) := by
  decide

/-- On a map that is not nil whose sentinel entry is absent or an error, every
sequence of calls returns; it leaves the map untouched when no call failed and
an error under the sentinel key when one did. -/
theorem sentinel_after_runCalls (rt : Runtime) (cs : List (Accessor × GoString))
    (m : MapParams) (hm : m ≠ .nil)
    (hinv : m.lookup "$_error" = none ∨ ∃ e, m.lookup "$_error" = some (.err e)) :
    ∃ rs m1, runCalls rt cs m = .ok (rs, m1) ∧
      (anyFailed rt cs m = false → m1 = m) ∧
      (anyFailed rt cs m = true → ∃ e, m1.lookup "$_error" = some (.err e)) := by
  induction cs generalizing m with
  | nil => exact ⟨[], m, rfl, fun _ => rfl, fun h => by simp [anyFailed] at h⟩
  | cons c cs ih =>
    rcases call_cases rt c.1 m c.2 with ⟨v, r, hv, hacc, hcall⟩ | ⟨hrej, hcall⟩
    · obtain ⟨rs, m1, hrun, h1, h2⟩ := ih m hm hinv
      have hk : keyFails rt c.1 m c.2 = false := by simp [keyFails, hv, hacc]
      have ha : anyFailed rt (c :: cs) m = anyFailed rt cs m := by
        simp only [anyFailed, hk, hcall, Bool.false_or]
      refine ⟨r :: rs, m1, by simp only [runCalls, hcall, hrun], ?_, ?_⟩
      · rw [ha]; exact h1
      · rw [ha]; exact h2
    · cases m with
      | nil => exact absurd rfl hm
      | mk f =>
        have hstep : call rt c.1 (.mk f) c.2 = .ok (c.1.zero, .mk fun k =>
            if k = "$_error" then
              some (.err (c.1.errorFor rt c.2 ((MapParams.mk f).lookup c.2)))
            else f k) := hcall
        have hinv1 : (MapParams.mk fun k =>
            if k = "$_error" then
              some (.err (c.1.errorFor rt c.2 ((MapParams.mk f).lookup c.2)))
            else f k).lookup "$_error" =
            some (.err (c.1.errorFor rt c.2 ((MapParams.mk f).lookup c.2))) := by
          simp only [MapParams.lookup, if_true]
        obtain ⟨rs, m1, hrun, h1, h2⟩ := ih _ (by simp) (Or.inr ⟨_, hinv1⟩)
        have hk : keyFails rt c.1 (.mk f) c.2 = true := by
          unfold keyFails
          cases hl : (MapParams.mk f).lookup c.2 with
          | none => rfl
          | some v => simp [hrej v hl]
        have ha : anyFailed rt (c :: cs) (.mk f) = true := by
          simp only [anyFailed, hk, Bool.true_or]
        refine ⟨c.1.zero :: rs, m1, by simp only [runCalls, hstep, hrun], ?_, ?_⟩
        · intro hf
          rw [ha] at hf
          exact absurd hf (by simp)
        · intro _
          cases hany : anyFailed rt cs (.mk fun k =>
              if k = "$_error" then
                some (.err (c.1.errorFor rt c.2 ((MapParams.mk f).lookup c.2)))
              else f k) with
          | false =>
            rw [h1 hany]
            exact ⟨_, hinv1⟩
          | true => exact h2 hany

/-- C15 (as amended): batch-then-check is sound and complete on a map that is not
nil.  Starting from such a map with no "$_error" entry, every finite sequence
of `String`/`Bool`/`Int64`/`Float64` calls with arbitrary keys returns, and
`Error()` afterwards returns nil when no call of the sequence failed and an
error when at least one did. -/
theorem batch_then_check (rt : Runtime) (cs : List (Accessor × GoString)) (m : MapParams)
    (hm : m ≠ .nil) (h0 : m.lookup "$_error" = none) :
    ∃ rs m1, runCalls rt cs m = .ok (rs, m1) ∧
      ((anyFailed rt cs m = false ∧ m1.Error = .ok none) ∨
        (anyFailed rt cs m = true ∧ ∃ e, m1.Error = .ok (some e))) := by
  obtain ⟨rs, m1, hrun, h1, h2⟩ := sentinel_after_runCalls rt cs m hm (Or.inl h0)
  refine ⟨rs, m1, hrun, ?_⟩
  cases hany : anyFailed rt cs m with
  | false =>
    left
    rw [h1 hany]
    exact ⟨rfl, by simp only [MapParams.Error, h0]⟩
  | true =>
    right
    obtain ⟨e, he⟩ := h2 hany
    exact ⟨rfl, e, by simp only [MapParams.Error, he]⟩

/-- Witness of C15: on the map with the one entry "ok", the batch `String("ok")`,
`Int64("$_error")` returns; one of its calls fails and `Error()` is not nil. -/
theorem batch_then_check_witness :
    ∃ rs m1, runCalls sampleRuntime [(.string, "ok"), (.int64, "$_error")]
        (single "ok" (.str "fine")) = .ok (rs, m1) ∧
      ((anyFailed sampleRuntime [(.string, "ok"), (.int64, "$_error")]
          (single "ok" (.str "fine")) = false ∧ m1.Error = .ok none) ∨
        (anyFailed sampleRuntime [(.string, "ok"), (.int64, "$_error")]
          (single "ok" (.str "fine")) = true ∧ ∃ e, m1.Error = .ok (some e))) :=
  batch_then_check sampleRuntime [(.string, "ok"), (.int64, "$_error")]
    (single "ok" (.str "fine")) (by simp [single])
    (by
      have h : "$_error" ≠ "ok" := by decide
      simp [single, MapParams.lookup, h])

/-- C15 as stated fails on the nil map: it has no "$_error" entry, the call
`String("k")` is a failing one (its key is missing), yet the sequence panics,
and `Error()` on the nil map returns nil. -/
theorem batch_check_nil_map :
    MapParams.lookup .nil "$_error" = none ∧
    anyFailed sampleRuntime [(.string, "k")] .nil = true ∧
    runCalls sampleRuntime [(.string, "k")] .nil = .error .nilMapWrite ∧
    MapParams.Error .nil = .ok none :=
  ⟨rfl, rfl, rfl, rfl⟩

/-- Go `==` holds between a finite float and itself. -/
theorem eq_self_fin (s : Bool) (m : Nat) (e : Int) :
    (GoFloat64.fin s m e).eq (GoFloat64.fin s m e) = true := by
  simp [GoFloat64.eq]

/-- The float64 conversion of an unsigned value is that of the same signed one. -/
theorem ofInt_natCast (u : Nat) : GoFloat64.ofInt (u : Int) = GoFloat64.ofNat u := by
  have h : ¬ ((u : Int) < 0) := by omega
  simp [GoFloat64.ofInt, GoFloat64.ofNat, h]

/-- A float whose value is the integer `n`, of magnitude below `2^53`, is `==`
to the float64 conversion of `n`. -/
theorem eq_ofInt_of_isInt (f : GoFloat64) (n : Int) (h : f.IsInt n) (hb : n.natAbs < 2 ^ 53) :
    f.eq (GoFloat64.ofInt n) = true := by
  have hr : roundNat n.natAbs = (n.natAbs, 0) := by simp only [roundNat, hb, if_true]
  cases f with
  | nan => exact absurd h (by simp [GoFloat64.IsInt])
  | inf s => exact absurd h (by simp [GoFloat64.IsInt])
  | fin s m e =>
    simp only [GoFloat64.ofInt, hr, Nat.cast_zero]
    rcases le_or_lt 0 e with he | he
    · obtain ⟨E, rfl⟩ := Int.eq_ofNat_of_zero_le he
      have hmin : min ((E : Nat) : Int) 0 = 0 := by omega
      have h' : signedMag s m * 2 ^ E = n := by
        simpa [GoFloat64.IsInt] using h
      have hnat : m * 2 ^ E = n.natAbs := by
        rw [← h']
        cases s <;> simp [signedMag, Int.natAbs_mul, Int.natAbs_pow]
      simp only [GoFloat64.eq, hmin, sub_zero, Int.toNat_ofNat, sub_self, Int.toNat_zero,
        pow_zero, mul_one, Bool.and_eq_true, decide_eq_true_eq, Bool.or_eq_true]
      refine ⟨hnat, ?_⟩
      cases s
      · left
        have : (0 : Int) ≤ n := by
          rw [← h']; simp only [signedMag, Bool.false_eq_true, if_false]; positivity
        simp [this]
      · by_cases hz : m * 2 ^ E = 0
        · right; exact hz
        · left
          have hpos : 0 < m * 2 ^ E := Nat.pos_of_ne_zero hz
          have : n < 0 := by
            rw [← h']
            simp only [signedMag, if_true]
            have : (0 : Int) < (m : Int) * 2 ^ E := by exact_mod_cast hpos
            linarith
          simp [this]
    · obtain ⟨D, rfl⟩ : ∃ D : ℕ, e = -((D : Int) + 1) := ⟨(-e - 1).toNat, by omega⟩
      have hD : (-(-((D : Int) + 1))).toNat = D + 1 := by omega
      have h0 : (-((D : Int) + 1)).toNat = 0 := by omega
      have hmin : min (-((D : Int) + 1)) 0 = -((D : Int) + 1) := by omega
      have hD2 : (0 - -((D : Int) + 1)).toNat = D + 1 := by omega
      simp only [GoFloat64.IsInt, hD, h0, pow_zero, mul_one] at h
      have hnat : m = n.natAbs * 2 ^ (D + 1) := by
        have hn := congrArg Int.natAbs h
        rw [Int.natAbs_mul, Int.natAbs_pow] at hn
        have h2 : Int.natAbs 2 = 2 := rfl
        rw [h2] at hn
        rw [← hn]
        cases s <;> simp [signedMag]
      simp only [GoFloat64.eq, hmin, sub_self, Int.toNat_zero, pow_zero, mul_one, hD2,
        Bool.and_eq_true, decide_eq_true_eq, Bool.or_eq_true]
      refine ⟨hnat, ?_⟩
      have hP : (0 : Int) < 2 ^ (D + 1) := by positivity
      cases s
      · left
        have : (0 : Int) ≤ n := by
          simp only [signedMag, Bool.false_eq_true, if_false] at h
          by_contra hneg
          have : n * 2 ^ (D + 1) < 0 := mul_neg_of_neg_of_pos (by omega) hP
          omega
        simp [this]
      · by_cases hz : m = 0
        · right; exact hz
        · left
          have : n < 0 := by
            simp only [signedMag, if_true] at h
            by_contra hnn
            have : (0 : Int) ≤ n * 2 ^ (D + 1) := mul_nonneg (by omega) hP.le
            omega
          simp [this]

/-- The sign bit of a float whose value is a non-zero integer is the sign of
that integer. -/
theorem signbit_of_isInt (f : GoFloat64) (n : Int) (h : f.IsInt n) (hn : n ≠ 0) :
    f.signbit = decide (n < 0) := by
  cases f with
  | nan => exact absurd h (by simp [GoFloat64.IsInt])
  | inf s => exact absurd h (by simp [GoFloat64.IsInt])
  | fin s m e =>
    simp only [GoFloat64.IsInt] at h
    have ha : (0 : Int) < 2 ^ e.toNat := by positivity
    have hb : (0 : Int) < 2 ^ (-e).toNat := by positivity
    cases s
    · have hnn : ¬ n < 0 := by
        intro hneg
        have h1 : n * 2 ^ (-e).toNat < 0 := mul_neg_of_neg_of_pos hneg hb
        have h2 : (0 : Int) ≤ signedMag false m * 2 ^ e.toNat := by
          simp only [signedMag, Bool.false_eq_true, if_false]
          positivity
        omega
      simp [GoFloat64.signbit, hnn]
    · have hneg : n < 0 := by
        by_contra hge
        have hpos : 0 < n := by omega
        have h1 : 0 < n * 2 ^ (-e).toNat := mul_pos hpos hb
        have h2 : signedMag true m * 2 ^ e.toNat ≤ 0 := by
          simp only [signedMag, if_true]
          have : (0 : Int) ≤ (m : Int) * 2 ^ e.toNat := by positivity
          linarith
        omega
      simp [GoFloat64.signbit, hneg]

/-- The sign bit of the float64 conversion of an integer is the sign of the integer. -/
theorem signbit_ofInt (n : Int) : (GoFloat64.ofInt n).signbit = decide (n < 0) := rfl

/-- C16 (as amended): `Int64` and `Float64` agree wherever `Int64` succeeds.
When the entry at `k` is one `Int64` accepts, `Int64` returns some `n` and
`Float64` returns some `g`, both leaving the map as it was, and `g` is `==` to
the float64 conversion of `n`.  For a signed or unsigned entry `g` is that
conversion itself; for a float-kinded entry `g` is the entry `f`, and the
conversion of `n` is the same float64 as `f` (same value, same sign bit)
unless `f` is the negative zero, for which it is the positive zero. -/
theorem int64_float64_agree (rt : Runtime) (m : MapParams) (k : GoString) (v : Value)
    (h : m.lookup k = some v) (hacc : Accessor.accepts rt .int64 v = true) :
    ∃ n g, m.Int64 rt k = .ok (n, m) ∧ m.Float64 rt k = .ok (g, m) ∧
      g.eq (GoFloat64.ofInt n) = true ∧
      (isFloatKind v = false → g = GoFloat64.ofInt n) ∧
      (isFloatKind v = true → g = v.Float) ∧
      (g.same (GoFloat64.ofInt n) = true ↔ ¬ (g.signbit = true ∧ n = 0)) := by
  have hsame : ∀ (g : GoFloat64) (n : Int), g.eq (GoFloat64.ofInt n) = true →
      (n ≠ 0 → g.signbit = decide (n < 0)) →
      (g.same (GoFloat64.ofInt n) = true ↔ ¬ (g.signbit = true ∧ n = 0)) := by
    intro g n he hs
    simp only [GoFloat64.same, he, Bool.true_and, signbit_ofInt, beq_iff_eq]
    by_cases hn : n = 0
    · subst hn
      cases g.signbit <;> simp
    · rw [hs hn]
      simp [hn]
  simp only [Accessor.accepts] at hacc
  by_cases hi : isIntKind v = true
  · obtain ⟨-, hf⟩ := (kinds_exclusive v).1 hi
    refine ⟨v.Int, GoFloat64.ofInt v.Int, ?_, ?_, eq_self_fin _ _ _, fun _ => rfl, ?_,
      hsame _ _ (eq_self_fin _ _ _) (fun _ => signbit_ofInt _)⟩
    · simp only [MapParams.Int64, h, hi, if_true]
    · simp only [MapParams.Float64, h, hi, if_true]
    · intro hf1
      rw [hf] at hf1
      exact absurd hf1 (by simp)
  · by_cases hu : isUintKind v = true
    · obtain ⟨-, hf⟩ := (kinds_exclusive v).2.1 hu
      simp only [hi, hu, if_true, if_false, decide_eq_true_eq, Bool.false_eq_true] at hacc
      have heq : (GoFloat64.ofNat v.Uint).eq (GoFloat64.ofInt (v.Uint : Int)) = true := by
        rw [ofInt_natCast]
        exact eq_self_fin _ _ _
      refine ⟨(v.Uint : Int), GoFloat64.ofNat v.Uint, ?_, ?_, heq,
        fun _ => (ofInt_natCast v.Uint).symm, ?_, hsame _ _ heq ?_⟩
      · simp only [MapParams.Int64, h, hi, hu, Bool.false_eq_true, if_false, if_true, hacc]
      · simp only [MapParams.Float64, h, hi, hu, Bool.false_eq_true, if_false, if_true]
      · intro hf1
        rw [hf] at hf1
        exact absurd hf1 (by simp)
      · intro _
        rw [← ofInt_natCast]
        exact signbit_ofInt _
    · by_cases hf : isFloatKind v = true
      · simp only [hi, hu, hf, if_true, if_false, Bool.and_eq_true, decide_eq_true_eq,
          Bool.false_eq_true] at hacc
        obtain ⟨⟨h1, h2⟩, h3⟩ := hacc
        have hint := float_reject rt.conv v.Float h1 h2 h3
        have heq := eq_ofInt_of_isInt v.Float _ hint (by omega)
        refine ⟨v.Float.toInt64 rt.conv, v.Float,
          (int64_float_branch rt m k v h hf).1 ⟨h1, h2, h3⟩, ?_, heq, ?_, fun _ => rfl,
          hsame _ _ heq (signbit_of_isInt _ _ hint)⟩
        · simp only [MapParams.Float64, h, hi, hu, hf, Bool.false_eq_true, if_false, if_true]
        · intro hne
          rw [hf] at hne
          exact absurd hne (by simp)
      · simp [hi, hu, hf] at hacc

/-- Witness of C16: the float 3.0, held as `6 * 2^-1`, gives 3 and a float `==`
to `float64(3)` and of the same sign bit. -/
theorem int64_float64_agree_witness :
    ∃ n g, (single "x" (.float .float64 (.fin false 6 (-1)))).Int64 sampleRuntime "x"
        = .ok (n, single "x" (.float .float64 (.fin false 6 (-1)))) ∧
      (single "x" (.float .float64 (.fin false 6 (-1)))).Float64 sampleRuntime "x"
        = .ok (g, single "x" (.float .float64 (.fin false 6 (-1)))) ∧
      g.eq (GoFloat64.ofInt n) = true ∧
      (isFloatKind (.float .float64 (.fin false 6 (-1))) = false → g = GoFloat64.ofInt n) ∧
      (isFloatKind (.float .float64 (.fin false 6 (-1))) = true →
        g = (Value.float .float64 (.fin false 6 (-1))).Float) ∧
      (g.same (GoFloat64.ofInt n) = true ↔ ¬ (g.signbit = true ∧ n = 0)) :=
  int64_float64_agree sampleRuntime (single "x" (.float .float64 (.fin false 6 (-1)))) "x"
    (.float .float64 (.fin false 6 (-1))) (by simp [single, MapParams.lookup]) (by decide)

/-- C16 as stated fails on the negative zero: `Int64` accepts the entry -0.0 and
returns 0, `Float64` returns -0.0, and converting 0 back gives +0.0, which is
`==` to the entry but not the same float64. -/
theorem negative_zero_round_trip :
    (single "z" (.float .float64 (.fin true 0 0))).Int64 sampleRuntime "z"
      = .ok (0, single "z" (.float .float64 (.fin true 0 0))) ∧
    (single "z" (.float .float64 (.fin true 0 0))).Float64 sampleRuntime "z"
      = .ok (.fin true 0 0, single "z" (.float .float64 (.fin true 0 0))) ∧
    GoFloat64.ofInt 0 = .fin false 0 0 ∧
    GoFloat64.ofInt 0 ≠ .fin true 0 0 ∧
    (GoFloat64.fin true 0 0).eq (GoFloat64.ofInt 0) = true ∧
    (GoFloat64.fin true 0 0).same (GoFloat64.ofInt 0) = false :=
  ⟨by rfl, by rfl, by decide, by decide, by decide, by decide⟩

/-- Storing the same error twice under the sentinel key is storing it once. -/
theorem store_twice (f : String → Option Value) (e : GoError) :
    (fun k => if k = "$_error" then some (Value.err e)
      else (fun k => if k = "$_error" then some (Value.err e) else f k) k) =
    (fun k => if k = "$_error" then some (Value.err e) else f k) := by
  funext k
  by_cases hk : k = "$_error" <;> simp [hk]

/-- C17: the accessors are idempotent away from the sentinel key.  For a key
other than "$_error", a second call of the same accessor with the same key on
the map the first call left returns the same value and leaves the same map
(so the same recorded error); a call on a map that is not nil does return, and
on the nil map the call panics both times. -/
theorem accessor_idempotent (rt : Runtime) (a : Accessor) (m : MapParams) (k : GoString)
    (hk : k ≠ "$_error") :
    (m ≠ .nil → ∃ r m1, call rt a m k = .ok (r, m1)) ∧
    (∀ r m1, call rt a m k = .ok (r, m1) → call rt a m1 k = .ok (r, m1)) ∧
    (call rt a m k).bind (fun x => call rt a x.2 k) = call rt a m k := by
  have hret : ∀ r m1, call rt a m k = .ok (r, m1) → call rt a m1 k = .ok (r, m1) := by
    intro r m1 h
    rcases call_cases rt a m k with ⟨v, r0, -, -, hcall⟩ | ⟨hrej, hcall⟩
    · rw [hcall] at h
      simp only [Except.ok.injEq, Prod.mk.injEq] at h
      obtain ⟨rfl, rfl⟩ := h
      exact hcall
    · rw [hcall] at h
      obtain ⟨hr, f, rfl, rfl⟩ := fail_path_ok h
      have hlook : (MapParams.mk fun k1 =>
          if k1 = "$_error" then
            some (.err (a.errorFor rt k ((MapParams.mk f).lookup k)))
          else f k1).lookup k = (MapParams.mk f).lookup k := by
        simp only [MapParams.lookup, hk, if_false]
      rcases call_cases rt a (.mk fun k1 =>
          if k1 = "$_error" then
            some (.err (a.errorFor rt k ((MapParams.mk f).lookup k)))
          else f k1) k with ⟨v, r0, hv, hacc, -⟩ | ⟨-, hcall2⟩
      · rw [hlook] at hv
        rw [hrej v hv] at hacc
        exact absurd hacc (by simp)
      · rw [hcall2, hlook, hr]
        simp only [MapParams.store, bind, Except.bind, pure, Except.pure, store_twice]
  refine ⟨?_, hret, ?_⟩
  · intro hm
    rcases call_cases rt a m k with ⟨v, r, -, -, hcall⟩ | ⟨-, hcall⟩
    · exact ⟨r, m, hcall⟩
    · cases m with
      | nil => exact absurd rfl hm
      | mk f => exact ⟨a.zero, _, hcall⟩
  · cases hc : call rt a m k with
    | error p => rfl
    | ok x =>
      obtain ⟨r, m1⟩ := x
      exact hret r m1 hc

/-- Witness of C17: `String("missing")` on the map with the one entry "ok" fails;
the same call on the map it left returns the same value and the same map. -/
theorem accessor_idempotent_witness :
    call sampleRuntime .string (single "ok" (.str "fine")) "missing" =
      .ok (.str "", .mk fun k =>
        if k = "$_error" then some (.err (missingKeyError "string" "missing"))
        else (fun k => if k = "ok" then some (.str "fine") else none) k) ∧
    call sampleRuntime .string
      (.mk fun k =>
        if k = "$_error" then some (.err (missingKeyError "string" "missing"))
        else (fun k => if k = "ok" then some (.str "fine") else none) k) "missing" =
      .ok (.str "", .mk fun k =>
        if k = "$_error" then some (.err (missingKeyError "string" "missing"))
        else (fun k => if k = "ok" then some (.str "fine") else none) k) :=
  ⟨by rfl,
   (accessor_idempotent sampleRuntime .string (single "ok" (.str "fine")) "missing"
      (by decide)).2.1 _ _ (by rfl)⟩
